import Mathlib

/-!
Go-To-Do-List-API: the request-ingress layer.

A shallow embedding of the envelope-decryption middleware (both variants) and
of the authentication handlers, with theorems about what they answer.

Conventions of the embedding.
* A Go `[]byte` is a `Bytes`, a list of `Fin 256`.
* A Go `string` the code computes on (the envelope, a header value) is a
  `List Char`; the envelope comes out of `json.Unmarshal`, which only produces
  valid UTF-8, and `:` and the hex digits are ASCII, so splitting and hex
  validation on characters agree with the byte-wise library routines.
* A Go `error` is the text its `Error()` method returns.
* Collaborators that are not part of the embedded files (`encoding/json`, the
  `crypto` package, the token manager, the auth service) are fields of an
  environment structure; every theorem holds for all of their behaviours.
* Each run of a handler yields an outcome and the trace of the observable
  calls it made (log lines, collaborator calls), in program order.
-/

namespace TodoApi

/-! ## Basic data -/

/-- A Go byte slice. -/
abbrev Bytes := List (Fin 256)

/-- A Go error, represented by its `Error()` text. -/
abbrev GoError := String

deriving instance DecidableEq for Except

/-! ## `strings` -/

/-- The function `strings.Split(s, sep)` for a one-character separator: the
substrings between the separators, `Count(s, sep) + 1` of them. -/
def Split : List Char → Char → List (List Char)
  | [], _ => [[]]
  | c :: cs, sep =>
    if c = sep then [] :: Split cs sep
    else
      match Split cs sep with
      | [] => [[c]]
      | p :: ps => (c :: p) :: ps

/-- The function `strings.TrimPrefix(s, prefix)`: `s` without the leading
`prefix` when it has it, `s` itself otherwise. -/
def TrimPrefix (s pre : List Char) : List Char :=
  if pre.isPrefixOf s then s.drop pre.length else s

/-! ## `encoding/hex` -/

/-- The errors of `encoding/hex`. -/
inductive HexError
  | InvalidByteError (c : Char)
  | ErrLength
  deriving DecidableEq, Repr

/-- The table `reverseHexTable` of `encoding/hex`: the value of a hex digit,
`0xff` for every other byte. -/
def reverseHexTable : Char → Nat
  | '0' => 0 | '1' => 1 | '2' => 2 | '3' => 3 | '4' => 4
  | '5' => 5 | '6' => 6 | '7' => 7 | '8' => 8 | '9' => 9
  | 'a' => 10 | 'b' => 11 | 'c' => 12 | 'd' => 13 | 'e' => 14 | 'f' => 15
  | 'A' => 10 | 'B' => 11 | 'C' => 12 | 'D' => 13 | 'E' => 14 | 'F' => 15
  | _ => 0xff

/-- The function `hex.DecodeString`: pairs of digits from the left, the first
invalid character reported before an odd length. -/
def DecodeString : List Char → Except HexError Bytes
  | [] => .ok []
  | [p] =>
    if reverseHexTable p > 0x0f then .error (.InvalidByteError p)
    else .error .ErrLength
  | p :: q :: rest =>
    if reverseHexTable p > 0x0f then .error (.InvalidByteError p)
    else if reverseHexTable q > 0x0f then .error (.InvalidByteError q)
    else
      match DecodeString rest with
      | .ok bs => .ok (Fin.ofNat ((reverseHexTable p <<< 4) ||| reverseHexTable q) :: bs)
      | .error e => .error e

/-- The table `hextable` of `encoding/hex`. -/
def hextable : List Char := "0123456789abcdef".toList

/-- The function `hex.EncodeToString`: two lower-case digits per byte. -/
def EncodeToString : Bytes → List Char
  | [] => []
  | v :: vs =>
    hextable.getD (v.val >>> 4) '0' :: hextable.getD (v.val &&& 0x0f) '0' :: EncodeToString vs

/-! ### What the claims call a valid hex string -/

/-- The hexadecimal digits, both cases. -/
def hexDigits : List Char := "0123456789abcdefABCDEF".toList

/-- A valid hex string: even length, hexadecimal digits only. -/
def ValidHex (s : List Char) : Prop :=
  s.length % 2 = 0 ∧ ∀ c ∈ s, c ∈ hexDigits

instance (s : List Char) : Decidable (ValidHex s) := by
  unfold ValidHex; exact inferInstance

/-- The text of an `encoding/hex` error; the rendering of the offending byte
(the `%#U` verb of `fmt`) is left to `render`. -/
def HexError.Error (render : Char → String) : HexError → String
  | .InvalidByteError c => "encoding/hex: invalid byte: " ++ render c
  | .ErrLength => "encoding/hex: odd length hex string"

/-! ## The request context and what a handler can do with it -/

/-- The part of `*fiber.Ctx` the middleware reads and writes. -/
structure Ctx where
  /-- The value of `c.Get("Content-Type")`, the request's content type header. -/
  contentType : String
  /-- The value of `c.Get("Authorization")`. -/
  authorization : List Char
  /-- The value of `c.Request().Body()`. -/
  body : Bytes
  /-- The value of `c.OriginalURL()`. -/
  originalURL : String
  /-- The request URI, set by `SetRequestURI`. -/
  requestURI : String
  /-- The per-request locals, set by `c.Locals(key, value)`. -/
  locals : List (String × Bytes)
  deriving DecidableEq, Repr

/-- The call `c.Request().SetBody(b)`. -/
def Ctx.SetBody (c : Ctx) (b : Bytes) : Ctx := { c with body := b }

/-- The call `c.Request().Header.SetContentType(t)`. -/
def Ctx.SetContentType (c : Ctx) (t : String) : Ctx := { c with contentType := t }

/-- The call `c.Request().SetRequestURI(u)`. -/
def Ctx.SetRequestURI (c : Ctx) (u : String) : Ctx := { c with requestURI := u }

/-- The call `c.Locals(key, value)`: the value replaces an earlier one. -/
def Ctx.Locals (c : Ctx) (key : String) (value : Bytes) : Ctx :=
  { c with locals := (key, value) :: c.locals.filter (fun kv => kv.1 ≠ key) }

/-- Reading a local back, as `c.Locals(key)` does. -/
def Ctx.getLocal (c : Ctx) (key : String) : Option Bytes :=
  (c.locals.find? (fun kv => kv.1 = key)).map (fun kv => kv.2)

/-- The tokens of an `AuthResponse` of `routes`. -/
structure AuthResponse where
  AccessToken : String
  RefreshToken : String
  ExpiresIn : Int
  deriving DecidableEq, Repr

/-- The struct `entities.User`, as far as the handlers read it. -/
structure User where
  ID : String
  Email : String
  Password : String
  Name : String
  deriving DecidableEq, Repr

/-- The struct `entities.Todo`, without its timestamps and its preloaded user. -/
structure Todo where
  ID : String
  Title : String
  Description : String
  UserID : String
  deriving DecidableEq, Repr

/-- The struct `dto.TodoDTO`. -/
structure TodoDTO where
  ID : String
  Title : String
  Description : String
  UserID : String
  deriving DecidableEq, Repr

/-- The struct `dto.UpdateTodoRequest`. -/
structure UpdateTodoRequest where
  Title : String
  Description : String
  deriving DecidableEq, Repr

/-- The struct `dto.TodoResponse`. -/
structure TodoResponse where
  ID : String
  Title : String
  Description : String
  UserID : String
  deriving DecidableEq, Repr

/-- The values the handlers put into a JSON response. -/
inductive JSONValue
  | str (s : String)
  | bool (b : Bool)
  | null
  | auth (a : AuthResponse)
  /-- A string-keyed map decoded by `json.Unmarshal`, given by its JSON encoding. -/
  | object (doc : Bytes)
  /-- A map from field names to texts, as built for validation errors. -/
  | fields (m : List (String × String))
  /-- A `dto.TodoResponse`. -/
  | todo (t : TodoResponse)
  /-- A slice of `dto.TodoResponse`. -/
  | todos (ts : List TodoResponse)
  deriving DecidableEq, Repr

/-- An HTTP response: `c.Status(status).JSON(body)`. -/
structure Response where
  status : Nat
  body : List (String × JSONValue)
  deriving DecidableEq, Repr

def StatusOK : Nat := 200
def StatusBadRequest : Nat := 400
def StatusUnauthorized : Nat := 401
def StatusInternalServerError : Nat := 500
def StatusCreated : Nat := 201
def StatusNotFound : Nat := 404
def StatusUnprocessableEntity : Nat := 422

/-- An observable call made while handling a request. -/
inductive Event
  /-- The call `log.Printf(format, err)`. -/
  | Printf (format : String) (arg : GoError)
  /-- The call `log.Printf(format, string(data))`. -/
  | PrintfBytes (format : String) (arg : Bytes)
  /-- The call `log.Print(msg)`. -/
  | Print (msg : String)
  /-- The logging half of `log.Fatalf(format, err)`. -/
  | Fatalf (format : String) (arg : GoError)
  /-- The logging half of `log.Fatal(msg)`. -/
  | Fatal (msg : String)
  /-- The call `crypto.LoadPrivateKey(path)`. -/
  | LoadPrivateKey (path : String)
  /-- The call `crypto.DecryptWithPrivateKey(key, ciphertext)`. -/
  | DecryptWithPrivateKey (ciphertext : Bytes)
  /-- The call `crypto.DecryptAES(key, ciphertext)`. -/
  | DecryptAES (key ciphertext : Bytes)
  /-- The call `h.JWTManager.Logout(userID)`. -/
  | JWTLogout (userID : String)
  /-- The call `h.JWTManager.RefreshToken(token)`. -/
  | JWTRefreshToken (token : List Char)
  /-- The call `h.authService.Login(c, &req)`. -/
  | AuthServiceLogin
  /-- The call `h.authService.RefreshToken(c, token)`. -/
  | AuthServiceRefreshToken (token : String)
  /-- The call `h.authService.Logout(ctx, token)`. -/
  | AuthServiceLogout (token : String)
  /-- The query `h.DB.Where("email = ?", email).First(&user)`. -/
  | FindUserByEmail (email : String)
  /-- The call `password.CheckPassword(password, hash)`. -/
  | CheckPassword (password hash : String)
  /-- The call `h.JWTManager.GenerateTokenPair(&user)`. -/
  | GenerateTokenPair (user : User)
  /-- The call `h.todoService.CreateTodo(c, req)`. -/
  | TodoServiceCreate (req : TodoDTO)
  /-- The call `h.todoService.UpdateTodo(c, id, req)`. -/
  | TodoServiceUpdate (id : String) (req : UpdateTodoRequest)
  /-- The call `t.redisClient.Get(ctx, key)`. -/
  | RedisGet (key : String)
  /-- The statement `go t.redisClient.Set(ctx, key, value, cacheExpiration)`, where it is spawned. -/
  | RedisSet (key value : String)
  /-- The call `t.redisClient.Del(ctx, key)` of a spawned invalidation, where it is spawned. -/
  | RedisDel (key : String)
  /-- The call `t.todoRepo.GetAll(ctx, userID)`. -/
  | RepoGetAll (userID : String)
  /-- The call `t.todoRepo.GetByID(ctx, id)`. -/
  | RepoGetByID (id : String)
  /-- The call `t.todoRepo.Update(ctx, id, todo)`. -/
  | RepoUpdate (id : String) (todo : Todo)
  /-- The call `t.todoRepo.Delete(ctx, id)`. -/
  | RepoDelete (id : String)
  deriving DecidableEq, Repr

/-- Whether an event is a call into the `crypto` package. -/
def Event.isCrypto : Event → Bool
  | .LoadPrivateKey _ => true
  | .DecryptWithPrivateKey _ => true
  | .DecryptAES _ _ => true
  | _ => false

/-- Whether an event is a line written to the log. -/
def Event.isLog : Event → Bool
  | .Printf _ _ => true
  | .PrintfBytes _ _ => true
  | .Print _ => true
  | .Fatalf _ _ => true
  | .Fatal _ => true
  | _ => false

/-- Whether a log line carries the given bytes as its argument. -/
def Event.logsBytes (data : Bytes) : Event → Bool
  | .PrintfBytes _ arg => decide (arg = data)
  | _ => false

/-- Whether an event modifies the todo repository. -/
def Event.isRepoWrite : Event → Bool
  | .RepoUpdate _ _ => true
  | .RepoDelete _ => true
  | _ => false

/-- Whether an event is a call of a logout (revoke-all) operation. -/
def Event.isLogout : Event → Bool
  | .JWTLogout _ => true
  | .AuthServiceLogout _ => true
  | _ => false

/-- How the handling of a request by a middleware ends. -/
inductive Outcome
  /-- With `return c.Next()`: the downstream handler runs on the context. -/
  | next (c : Ctx)
  /-- With `return c.Status(..).JSON(..)`: the response is sent, nothing runs downstream. -/
  | respond (r : Response)
  /-- With `os.Exit(code)`, the second half of `log.Fatal`: the process ends. -/
  | exit (code : Nat)
  deriving DecidableEq, Repr

/-- A value together with the calls made to compute it. -/
structure Traced (α : Type) where
  value : α
  trace : List Event

/-- The run of a middleware on a request. -/
abbrev Run := Traced Outcome

/-- The struct `RequestBody`, the same in both middleware packages. -/
structure RequestBody where
  Data : List Char
  deriving DecidableEq, Repr

/-- What the middleware calls outside its own file: `encoding/json`, the
`crypto` package of the repository, and the rendering of a byte in a hex error. -/
structure Env where
  /-- The type `*rsa.PrivateKey`. -/
  PrivateKey : Type
  /-- The call `json.Unmarshal(body, &reqBody)` on a zero `RequestBody`. -/
  Unmarshal : Bytes → Except GoError RequestBody
  /-- The call `json.Valid(data)`. -/
  Valid : Bytes → Bool
  /-- The call `crypto.LoadPrivateKey(path)`. -/
  LoadPrivateKey : String → Except GoError PrivateKey
  /-- The call `crypto.DecryptWithPrivateKey(key, ciphertext)`. -/
  DecryptWithPrivateKey : PrivateKey → Bytes → Except GoError Bytes
  /-- The call `crypto.DecryptAES(key, ciphertext)`. -/
  DecryptAES : Bytes → Bytes → Except GoError Bytes
  /-- The rendering of the byte in the text of `hex.InvalidByteError`. -/
  renderByte : Char → String

/-! ## `internal/interfaces/http/middleware/decrypt.go` -/

namespace HttpMiddleware

/-- The function `decryptData`. -/
def decryptData (env : Env) (privateKeyPath : String) (encryptedInput : List Char) :
    Traced (Except GoError Bytes) :=
  match env.LoadPrivateKey privateKeyPath with
  | .error err =>
    ⟨.error ("failed to load private key: " ++ err), [.LoadPrivateKey privateKeyPath]⟩
  | .ok privateKey =>
    match Split encryptedInput ':' with
    | [part0, part1] =>
      match DecodeString part0 with
      | .error err =>
        ⟨.error ("failed to decode encrypted key: " ++ err.Error env.renderByte),
          [.LoadPrivateKey privateKeyPath]⟩
      | .ok encryptedKey =>
        match DecodeString part1 with
        | .error err =>
          ⟨.error ("failed to decode encrypted data: " ++ err.Error env.renderByte),
            [.LoadPrivateKey privateKeyPath]⟩
        | .ok encryptedData =>
          match env.DecryptWithPrivateKey privateKey encryptedKey with
          | .error err =>
            ⟨.error ("failed to decrypt AES key: " ++ err),
              [.LoadPrivateKey privateKeyPath, .DecryptWithPrivateKey encryptedKey]⟩
          | .ok aesKey =>
            match env.DecryptAES aesKey encryptedData with
            | .error err =>
              ⟨.error ("failed to decrypt message: " ++ err),
                [.LoadPrivateKey privateKeyPath, .DecryptWithPrivateKey encryptedKey,
                  .DecryptAES aesKey encryptedData]⟩
            | .ok decryptedData =>
              ⟨.ok decryptedData,
                [.LoadPrivateKey privateKeyPath, .DecryptWithPrivateKey encryptedKey,
                  .DecryptAES aesKey encryptedData]⟩
    | _ =>
      ⟨.error "invalid input format. Expected format: <encrypted_key_hex>:<encrypted_data_hex>",
        [.LoadPrivateKey privateKeyPath]⟩

/-- The function `validateAndProcessRequest` (its context argument is unused). -/
def validateAndProcessRequest (env : Env) (body : Bytes) : Except GoError RequestBody :=
  if body.length = 0 then .error "request body is empty"
  else
    match env.Unmarshal body with
    | .error err => .error ("invalid request format: " ++ err)
    | .ok reqBody =>
      if reqBody.Data = [] then .error "encrypted data is required in \'data\' field"
      else
        match Split reqBody.Data ':' with
        | [part0, part1] =>
          match DecodeString part0 with
          | .error _ => .error "invalid encrypted key format: not a valid hex string"
          | .ok _ =>
            match DecodeString part1 with
            | .error _ => .error "invalid encrypted data format: not a valid hex string"
            | .ok _ => .ok reqBody
        | _ =>
          .error "invalid encrypted data format. Expected format: <encrypted_key_hex>:<encrypted_data_hex>"

/-- The message sent for every failure of `decryptData`. -/
def decryptFailedMessage : String := "Failed to decrypt data. Invalid or corrupted data."

/-- The handler returned by `DecryptMiddleware(privateKeyPath)`. -/
def DecryptMiddleware (env : Env) (privateKeyPath : String) (c : Ctx) : Run :=
  if c.contentType ≠ "application/json" then ⟨.next c, []⟩
  else
    match validateAndProcessRequest env c.body with
    | .error err =>
      ⟨.respond ⟨StatusBadRequest, [("error", .str err)]⟩,
        [.Printf "Request validation failed: %v" err]⟩
    | .ok reqBody =>
      let d := decryptData env privateKeyPath reqBody.Data
      match d.value with
      | .error err =>
        ⟨.respond ⟨StatusBadRequest, [("error", .str decryptFailedMessage)]⟩,
          d.trace ++ [.Printf "Decryption failed: %v" err]⟩
      | .ok decryptedData =>
        if ¬ env.Valid decryptedData then
          ⟨.respond ⟨StatusBadRequest, [("error", .str "Decrypted data is not valid JSON")]⟩,
            d.trace ++ [.Print "Decrypted data is not valid JSON"]⟩
        else
          ⟨.next ((((c.SetBody decryptedData).SetContentType "application/json").SetRequestURI
              c.originalURL).Locals "decryptedBody" decryptedData),
            d.trace⟩

/-- The message of the validation stage for an envelope that does not have two parts. -/
def formatErrorMessage : String :=
  "invalid encrypted data format. Expected format: <encrypted_key_hex>:<encrypted_data_hex>"

/-- The five messages of the validation stage that do not depend on the request. -/
def validationMessages : List String :=
  ["request body is empty",
   "encrypted data is required in \'data\' field",
   formatErrorMessage,
   "invalid encrypted key format: not a valid hex string",
   "invalid encrypted data format: not a valid hex string"]

/-- Every stage succeeds on a body: validation, key load, hex decoding of the
two parts, key unwrap, payload decryption, and the plaintext is valid JSON. -/
def AllStagesSucceed (env : Env) (privateKeyPath : String) (body : Bytes) : Prop :=
  ∃ (reqBody : RequestBody) (privateKey : env.PrivateKey) (part0 part1 : List Char)
    (encryptedKey encryptedData aesKey plaintext : Bytes),
    validateAndProcessRequest env body = .ok reqBody ∧
    env.LoadPrivateKey privateKeyPath = .ok privateKey ∧
    Split reqBody.Data ':' = [part0, part1] ∧
    DecodeString part0 = .ok encryptedKey ∧
    DecodeString part1 = .ok encryptedData ∧
    env.DecryptWithPrivateKey privateKey encryptedKey = .ok aesKey ∧
    env.DecryptAES aesKey encryptedData = .ok plaintext ∧
    env.Valid plaintext = true

/-- A malformed envelope: an empty body, or a wrapper whose data does not have
exactly one separator or has a part that is not a valid hex string. -/
def Malformed (env : Env) (body : Bytes) : Prop :=
  body = [] ∨
  ∃ reqBody, env.Unmarshal body = .ok reqBody ∧
    (reqBody.Data.count ':' ≠ 1 ∨ ∃ part ∈ Split reqBody.Data ':', ¬ ValidHex part)

end HttpMiddleware

/-! ## `internal/middleware/decrypt.go` -/

namespace Middleware

/-- The handler returned by `DecryptMiddleware(privateKeyPath)` of
`internal/middleware`. A `log.Fatal` is its log line followed by `os.Exit(1)`;
nothing after it runs. -/
def DecryptMiddleware (env : Env) (privateKeyPath : String) (c : Ctx) : Run :=
  if c.contentType ≠ "application/json" then ⟨.next c, []⟩
  else if c.body.length = 0 then
    ⟨.respond ⟨StatusBadRequest, [("error", .str "Request body is empty")]⟩, []⟩
  else
    match env.Unmarshal c.body with
    | .error err =>
      ⟨.respond ⟨StatusBadRequest,
          [("error", .str "Invalid request format. Expected \x7b\"data\": \"encrypted_data\"\x7d")]⟩,
        [.Printf "Failed to parse request body: %v" err]⟩
    | .ok reqBody =>
      match env.LoadPrivateKey privateKeyPath with
      | .error err =>
        ⟨.exit 1, [.LoadPrivateKey privateKeyPath, .Fatalf "Failed to load private key: %v" err]⟩
      | .ok privateKey =>
        match Split reqBody.Data ':' with
        | [encryptedKeyHex, encryptedDataHex] =>
          match DecodeString encryptedKeyHex with
          | .error err =>
            ⟨.exit 1, [.LoadPrivateKey privateKeyPath,
              .Fatalf "Failed to decode encrypted key: %v" (err.Error env.renderByte)]⟩
          | .ok encryptedKey =>
            match DecodeString encryptedDataHex with
            | .error err =>
              ⟨.exit 1, [.LoadPrivateKey privateKeyPath,
                .Fatalf "Failed to decode encrypted data: %v" (err.Error env.renderByte)]⟩
            | .ok encryptedData =>
              match env.DecryptWithPrivateKey privateKey encryptedKey with
              | .error err =>
                ⟨.exit 1, [.LoadPrivateKey privateKeyPath, .DecryptWithPrivateKey encryptedKey,
                  .Fatalf "Failed to decrypt AES key: %v" err]⟩
              | .ok aesKey =>
                match env.DecryptAES aesKey encryptedData with
                | .error err =>
                  ⟨.exit 1, [.LoadPrivateKey privateKeyPath, .DecryptWithPrivateKey encryptedKey,
                    .DecryptAES aesKey encryptedData, .Fatalf "Failed to decrypt message: %v" err]⟩
                | .ok decryptedData =>
                  if ¬ env.Valid decryptedData then
                    ⟨.respond ⟨StatusBadRequest,
                        [("error", .str "Decrypted data is not valid JSON")]⟩,
                      [.LoadPrivateKey privateKeyPath, .DecryptWithPrivateKey encryptedKey,
                        .DecryptAES aesKey encryptedData,
                        .PrintfBytes "Decrypted data: %s" decryptedData,
                        .Print "Decrypted data is not valid JSON"]⟩
                  else
                    ⟨.next ((((c.SetBody decryptedData).SetContentType
                        "application/json").SetRequestURI c.originalURL).Locals
                        "decryptedBody" decryptedData),
                      [.LoadPrivateKey privateKeyPath, .DecryptWithPrivateKey encryptedKey,
                        .DecryptAES aesKey encryptedData,
                        .PrintfBytes "Decrypted data: %s" decryptedData]⟩
        | _ =>
          ⟨.exit 1, [.LoadPrivateKey privateKeyPath,
            .Fatal "Invalid input format. Expected format: <encrypted_key_hex>:<encrypted_data_hex>"]⟩

/-- A client-caused envelope error, as the middleware meets it once the body
is parsed and the key is loaded: a part count other than two, a part that is
not valid hex, a key that does not unwrap, or a payload that does not decrypt. -/
def ClientEnvelopeError (env : Env) (privateKey : env.PrivateKey) (data : List Char) : Prop :=
  data.count ':' ≠ 1 ∨
  ∃ part0 part1, Split data ':' = [part0, part1] ∧
    (¬ ValidHex part0 ∨ ¬ ValidHex part1 ∨
      ∃ encryptedKey encryptedData,
        DecodeString part0 = .ok encryptedKey ∧ DecodeString part1 = .ok encryptedData ∧
        ((∃ err, env.DecryptWithPrivateKey privateKey encryptedKey = .error err) ∨
          ∃ aesKey err, env.DecryptWithPrivateKey privateKey encryptedKey = .ok aesKey ∧
            env.DecryptAES aesKey encryptedData = .error err))

end Middleware

/-! ## `internal/utils/response/response.go` -/

namespace ResponsePkg

/-- The function `response.SuccessResponse`: `c.JSON` on the default status. -/
def SuccessResponse (message : String) (data : JSONValue) : Response :=
  ⟨StatusOK, [("success", .bool true), ("message", .str message), ("data", data)]⟩

/-- The function `response.ErrorResponse`. -/
def ErrorResponse (statusCode : Nat) (message : String) : Response :=
  ⟨statusCode, [("success", .bool false), ("error", .str message)]⟩

end ResponsePkg

/-! ## `internal/interfaces/routes/auth_routes.go` -/

namespace Routes

/-- The keys of the token map returned by the token manager. -/
inductive TokenType
  | AccessToken
  | RefreshToken
  deriving DecidableEq, Repr

/-- What `routes.AuthHandler` calls outside its own file: the auth middleware
helper and the token manager of `internal/utils/jwt`. -/
structure Deps where
  /-- The call `middleware.GetUserIDFromContext(c)`. -/
  GetUserIDFromContext : Ctx → Except GoError String
  /-- The call `h.JWTManager.Logout(userID)`. -/
  Logout : String → Except GoError Unit
  /-- The call `h.JWTManager.RefreshToken(token)`; a Go map read at a key is a function. -/
  RefreshToken : List Char → Except GoError (TokenType → String)

/-- The method `AuthHandler.RefreshToken`. -/
def RefreshToken (h : Deps) (c : Ctx) : Traced Response :=
  let token := c.authorization
  if token = [] then
    ⟨ResponsePkg.ErrorResponse StatusBadRequest "Refresh token is required", []⟩
  else
    let token := TrimPrefix token "Bearer ".toList
    match h.RefreshToken token with
    | .error _ =>
      ⟨ResponsePkg.ErrorResponse StatusUnauthorized "Invalid or expired refresh token",
        [.JWTRefreshToken token]⟩
    | .ok tokens =>
      ⟨ResponsePkg.SuccessResponse "Token refreshed successfully"
          (.auth ⟨tokens .AccessToken, tokens .RefreshToken, 15 * 60⟩),
        [.JWTRefreshToken token]⟩

/-- The method `AuthHandler.Logout`. -/
def Logout (h : Deps) (c : Ctx) : Traced Response :=
  match h.GetUserIDFromContext c with
  | .error _ => ⟨ResponsePkg.ErrorResponse StatusUnauthorized "User not authenticated", []⟩
  | .ok userID =>
    match h.Logout userID with
    | .error _ =>
      ⟨ResponsePkg.ErrorResponse StatusInternalServerError "Failed to logout",
        [.JWTLogout userID]⟩
    | .ok _ =>
      ⟨ResponsePkg.SuccessResponse "Successfully logged out" .null, [.JWTLogout userID]⟩

end Routes

/-! ## `internal/interfaces/http/handlers/auth_handler.go` -/

namespace Handlers

/-- The struct `dto.RefreshTokenRequest`, as far as the handler reads it. -/
structure RefreshTokenRequest where
  RefreshToken : String
  deriving DecidableEq, Repr

/-- What `handlers.AuthHandler` calls outside its own file: the body parser,
the auth validator, the auth service, and the response helpers of
`internal/utils`. -/
structure Deps where
  /-- The type `dto.LoginRequest`. -/
  LoginRequest : Type
  /-- The call `c.BodyParser(&req)` for a login request. -/
  BodyParserLogin : Ctx → Except GoError LoginRequest
  /-- The call `h.validator.ValidateLogin(&req)`. -/
  ValidateLogin : LoginRequest → List String
  /-- The call `h.authService.Login(c, &req)`. -/
  Login : Ctx → LoginRequest → Except GoError JSONValue
  /-- The call `c.BodyParser(&req)` for a refresh request. -/
  BodyParserRefreshToken : Ctx → Except GoError RefreshTokenRequest
  /-- The call `h.validator.ValidateRefreshToken(&req)`. -/
  ValidateRefreshToken : RefreshTokenRequest → List String
  /-- The call `h.authService.RefreshToken(c, token)`. -/
  RefreshToken : Ctx → String → Except GoError JSONValue
  /-- The call `h.authService.Logout(ctx, token)`. -/
  Logout : Ctx → String → Except GoError Unit
  /-- The call `utils.SuccessResponse(c, message, data)`. -/
  SuccessResponse : String → JSONValue → Response
  /-- The call `utils.ErrorResponse(c, statusCode, message)`. -/
  ErrorResponse : Nat → String → Response
  /-- The call `utils.ValidationErrorResponse(c, errors)`. -/
  ValidationErrorResponse : List String → Response

def INVALID_REQUEST_BODY : String := "Invalid request body"

/-- The method `AuthHandler.Login`. -/
def Login (h : Deps) (c : Ctx) : Traced Response :=
  match h.BodyParserLogin c with
  | .error _ => ⟨h.ErrorResponse StatusBadRequest INVALID_REQUEST_BODY, []⟩
  | .ok req =>
    let errors := h.ValidateLogin req
    if errors.length > 0 then ⟨h.ValidationErrorResponse errors, []⟩
    else
      match h.Login c req with
      | .error err => ⟨h.ErrorResponse StatusUnauthorized err, [.AuthServiceLogin]⟩
      | .ok response => ⟨h.SuccessResponse "Login successful" response, [.AuthServiceLogin]⟩

/-- The method `AuthHandler.Logout`: the extraction of the token and the call
of the auth service are commented out in the source, only the last line runs. -/
def Logout (h : Deps) (_c : Ctx) : Traced Response :=
  ⟨h.SuccessResponse "Logout successful" .null, []⟩

/-- The method `AuthHandler.RefreshToken`. -/
def RefreshToken (h : Deps) (c : Ctx) : Traced Response :=
  match h.BodyParserRefreshToken c with
  | .error _ => ⟨h.ErrorResponse StatusBadRequest INVALID_REQUEST_BODY, []⟩
  | .ok req =>
    let errors := h.ValidateRefreshToken req
    if errors.length > 0 then ⟨h.ValidationErrorResponse errors, []⟩
    else
      match h.RefreshToken c req.RefreshToken with
      | .error err =>
        ⟨h.ErrorResponse StatusUnauthorized err, [.AuthServiceRefreshToken req.RefreshToken]⟩
      | .ok response =>
        ⟨h.SuccessResponse "Token refreshed successfully" response,
          [.AuthServiceRefreshToken req.RefreshToken]⟩

end Handlers

/-! ## More of `internal/utils/response/response.go` -/

namespace ResponsePkg

/-- The map built by `errs[err.Field()] = err.Tag()` over the validation errors:
a later error of a field replaces an earlier one. -/
def fieldTags (errs : List (String × String)) : List (String × String) :=
  errs.foldl (fun m e => (e.1, e.2) :: m.filter (fun kv => kv.1 ≠ e.1)) []

/-- The function `response.ValidationErrorResponse`, on the (field, tag) pairs
of the `validator.ValidationErrors`. -/
def ValidationErrorResponse (errs : List (String × String)) : Response :=
  ⟨StatusUnprocessableEntity,
    [("success", .bool false), ("error", .str "Validation failed"),
      ("errors", .fields (fieldTags errs))]⟩

end ResponsePkg

/-! ## More of `internal/interfaces/routes/auth_routes.go`: the login -/

namespace Routes

/-- The struct `LoginRequest`. -/
structure LoginRequest where
  Email : String
  Password : String
  deriving DecidableEq, Repr

/-- The outcome of `h.DB.Where("email = ?", email).First(&user)`. -/
inductive FindResult
  /-- No error: the user was loaded. -/
  | found (user : User)
  /-- The error `gorm.ErrRecordNotFound`. -/
  | ErrRecordNotFound
  /-- Any other error. -/
  | failed (err : GoError)
  deriving DecidableEq, Repr

/-- What `AuthHandler.Login` calls outside its own file. -/
structure LoginDeps where
  /-- The call `c.BodyParser(req)`. -/
  BodyParser : Ctx → Except GoError LoginRequest
  /-- The call `validate.Struct(req)`: the (field, tag) pairs that failed, none
  when the error is nil. -/
  ValidateStruct : LoginRequest → List (String × String)
  /-- The query `h.DB.Where("email = ?", email).First(&user)`. -/
  FindUserByEmail : String → FindResult
  /-- The call `password.CheckPassword(password, hash)`. -/
  CheckPassword : String → String → Except GoError Unit
  /-- The call `h.JWTManager.GenerateTokenPair(&user)`. -/
  GenerateTokenPair : User → Except GoError (TokenType → String)

/-- The method `AuthHandler.Login`. -/
def Login (h : LoginDeps) (c : Ctx) : Traced Response :=
  match h.BodyParser c with
  | .error _ => ⟨ResponsePkg.ErrorResponse StatusBadRequest "Invalid request body", []⟩
  | .ok req =>
    if h.ValidateStruct req ≠ [] then
      ⟨ResponsePkg.ValidationErrorResponse (h.ValidateStruct req), []⟩
    else
      match h.FindUserByEmail req.Email with
      | .ErrRecordNotFound =>
        ⟨ResponsePkg.ErrorResponse StatusUnauthorized "Invalid credentials",
          [.FindUserByEmail req.Email]⟩
      | .failed _ =>
        ⟨ResponsePkg.ErrorResponse StatusInternalServerError "Failed to login",
          [.FindUserByEmail req.Email]⟩
      | .found user =>
        match h.CheckPassword req.Password user.Password with
        | .error _ =>
          ⟨ResponsePkg.ErrorResponse StatusUnauthorized "Invalid credentials",
            [.FindUserByEmail req.Email, .CheckPassword req.Password user.Password]⟩
        | .ok _ =>
          match h.GenerateTokenPair user with
          | .error _ =>
            ⟨ResponsePkg.ErrorResponse StatusInternalServerError "Failed to generate tokens",
              [.FindUserByEmail req.Email, .CheckPassword req.Password user.Password,
                .GenerateTokenPair user]⟩
          | .ok tokens =>
            ⟨ResponsePkg.SuccessResponse "Login successful"
                (.auth ⟨tokens .AccessToken, tokens .RefreshToken, 15 * 60⟩),
              [.FindUserByEmail req.Email, .CheckPassword req.Password user.Password,
                .GenerateTokenPair user]⟩

end Routes

/-! ## `internal/interfaces/http/routes/routes.go`: the route `POST /api/decrypt` -/

namespace HttpRoutes

/-- The kinds of JSON values. -/
inductive JSONKind
  | object
  | array
  | string
  | number
  | boolean
  | null
  deriving DecidableEq, Repr

/-- What the handler of `POST /api/decrypt` calls outside its own file:
`encoding/json` and the response helpers of `internal/utils`. -/
structure Deps where
  /-- The kind of the value of a JSON document, `none` for bytes that are not
  valid JSON. -/
  Kind : Bytes → Option JSONKind
  /-- The decoding of the members of an object document into a
  `map[string]interface{}`: the map, given by its JSON encoding, or the error
  saved on a member that does not decode, such as a number outside the range of
  `float64`. -/
  DecodeObject : Bytes → Except GoError Bytes
  /-- The text of the error of a failed `json.Unmarshal`. -/
  UnmarshalErrorText : Bytes → GoError
  /-- The call `utils.SuccessResponse(c, message, data)`. -/
  SuccessResponse : String → JSONValue → Response
  /-- The call `utils.ErrorResponse(c, statusCode, message)`. -/
  ErrorResponse : Nat → String → Response

/-- The call `json.Unmarshal(data, &result)` for `var result map[string]interface{}`:
an object decodes into the map unless one of its members does not decode,
`null` leaves the map nil, and a value of another kind, or bytes that are not
JSON, are an error. -/
def UnmarshalMap (h : Deps) (data : Bytes) : Except GoError JSONValue :=
  match h.Kind data with
  | some .object =>
    match h.DecodeObject data with
    | .ok decoded => .ok (.object decoded)
    | .error err => .error err
  | some .null => .ok .null
  | _ => .error (h.UnmarshalErrorText data)

/-- The closure registered for `POST /decrypt` behind the middleware. -/
def decryptHandler (h : Deps) (c : Ctx) : Response :=
  match UnmarshalMap h c.body with
  | .error _ => h.ErrorResponse StatusBadRequest "failed to unmarshal JSON data"
  | .ok result => h.SuccessResponse "OK" result

/-- The route `POST /api/decrypt`, which `SetupRoutes` registers when `AppEnv`
is `development`: the middleware, then the closure on the context it hands on. -/
def decryptEndpoint (env : Env) (h : Deps) (privateKeyPath : String) (c : Ctx) : Outcome :=
  match (HttpMiddleware.DecryptMiddleware env privateKeyPath c).value with
  | .next c2 => .respond (decryptHandler h c2)
  | .respond r => .respond r
  | .exit code => .exit code

end HttpRoutes

/-! ## `internal/interfaces/validator/todo_validator.go` -/

namespace Validators

/-- The function `ValidateCreateTodo`. -/
def ValidateCreateTodo (req : TodoDTO) : List String :=
  (if req.Title = "" then ["Title is required"] else []) ++
    (if req.Description = "" then ["Description is required"] else [])

/-- The function `ValidateUpdateTodo`. -/
def ValidateUpdateTodo (req : UpdateTodoRequest) : List String :=
  (if req.Title = "" then ["Title is required"] else []) ++
    (if req.Description = "" then ["Description is required"] else [])

/-- What the `validate` tags of `dto.TodoDTO` and `dto.UpdateTodoRequest` ask of
a title and a description: `required,min=3,max=100` and `required,min=5`, the
lengths counted in characters. -/
def MeetsTags (title description : String) : Prop :=
  title ≠ "" ∧ 3 ≤ title.length ∧ title.length ≤ 100 ∧
    description ≠ "" ∧ 5 ≤ description.length

instance (title description : String) : Decidable (MeetsTags title description) := by
  unfold MeetsTags; exact inferInstance

end Validators

/-! ## `internal/interfaces/http/handlers/todo_handler.go` -/

namespace Handlers

/-- What `handlers.TodoHandler` calls outside its own file and the validators:
the body parser, the route parameters, the auth middleware helper, the todo
service, and the response helpers of `internal/utils`. -/
structure TodoDeps where
  /-- The call `c.BodyParser(&req)` for a `dto.TodoDTO`. -/
  BodyParserTodoDTO : Ctx → Except GoError TodoDTO
  /-- The call `c.BodyParser(&req)` for a `dto.UpdateTodoRequest`. -/
  BodyParserUpdateTodoRequest : Ctx → Except GoError UpdateTodoRequest
  /-- The call `c.Params(key)`. -/
  Params : Ctx → String → String
  /-- The call `middleware.GetUserIDFromContext(c)`. -/
  GetUserIDFromContext : Ctx → Except GoError String
  /-- The call `h.todoService.CreateTodo(c, req)`. -/
  CreateTodo : Ctx → TodoDTO → Except GoError TodoResponse
  /-- The call `h.todoService.UpdateTodo(c, id, req)`. -/
  UpdateTodo : Ctx → String → UpdateTodoRequest → Except GoError TodoResponse
  /-- The call `utils.SuccessResponse(c, message, data)`. -/
  SuccessResponse : String → JSONValue → Response
  /-- The call `utils.CreatedResponse(c, message, data)`. -/
  CreatedResponse : String → JSONValue → Response
  /-- The call `utils.ErrorResponse(c, statusCode, message)`. -/
  ErrorResponse : Nat → String → Response
  /-- The call `utils.ValidationErrorResponse(c, errors)`. -/
  ValidationErrorResponse : List String → Response

/-- The method `TodoHandler.CreateTodo`. -/
def CreateTodo (h : TodoDeps) (c : Ctx) : Traced Response :=
  match h.BodyParserTodoDTO c with
  | .error _ => ⟨h.ErrorResponse StatusBadRequest INVALID_REQUEST_BODY, []⟩
  | .ok req =>
    match h.GetUserIDFromContext c with
    | .error err => ⟨h.ErrorResponse StatusUnauthorized err, []⟩
    | .ok userID =>
      let req : TodoDTO := { req with UserID := userID }
      let errors := Validators.ValidateCreateTodo req
      if errors.length > 0 then ⟨h.ValidationErrorResponse errors, []⟩
      else
        match h.CreateTodo c req with
        | .error err => ⟨h.ErrorResponse StatusBadRequest err, [.TodoServiceCreate req]⟩
        | .ok response =>
          ⟨h.CreatedResponse "Todo created successfully" (.todo response),
            [.TodoServiceCreate req]⟩

/-- The method `TodoHandler.UpdateTodo`. -/
def UpdateTodo (h : TodoDeps) (c : Ctx) : Traced Response :=
  match h.BodyParserUpdateTodoRequest c with
  | .error _ => ⟨h.ErrorResponse StatusBadRequest INVALID_REQUEST_BODY, []⟩
  | .ok req =>
    let id := h.Params c "id"
    if id = "" then ⟨h.ErrorResponse StatusBadRequest "id is required", []⟩
    else
      let errors := Validators.ValidateUpdateTodo req
      if errors.length > 0 then ⟨h.ValidationErrorResponse errors, []⟩
      else
        match h.UpdateTodo c id req with
        | .error err =>
          if err = "Unauthorized" then
            ⟨h.ErrorResponse StatusUnauthorized err, [.TodoServiceUpdate id req]⟩
          else if err = "Not found todo with id: " ++ id then
            ⟨h.ErrorResponse StatusNotFound err, [.TodoServiceUpdate id req]⟩
          else ⟨h.ErrorResponse StatusBadRequest err, [.TodoServiceUpdate id req]⟩
        | .ok response =>
          ⟨h.SuccessResponse "Todo updated successfully" (.todo response),
            [.TodoServiceUpdate id req]⟩

end Handlers

/-! ## `internal/application/services/todo_services_impl.go` -/

namespace Services

/-- The verb `%s` of `fmt` on a format with one such verb and one string argument. -/
def substS : List Char → String → List Char
  | [], _ => []
  | '%' :: 's' :: rest, arg => arg.toList ++ rest
  | ch :: rest, arg => ch :: substS rest arg

/-- The calls `fmt.Sprintf(format, arg)` and `fmt.Errorf(format, arg)` of this file. -/
def Sprintf (format arg : String) : String := String.mk (substS format.toList arg)

def todoCacheKey : String := "todo:%s"
def todoListCacheKey : String := "todos"
def errTodoNotFound : String := "Not found todo with id: %s"
def errUnauthorized : String := "Unauthorized"

/-- How a call ends: it returns, or it panics. -/
inductive Completion (α : Type)
  | returned (v : α)
  | panicked (msg : String)
  deriving DecidableEq, Repr

/-- What `todoService` calls outside its own file: the auth middleware helper,
the Redis client, `encoding/json`, and the todo repository. -/
structure Deps where
  /-- The call `middleware.GetUserIDFromContext(ctx)`. -/
  GetUserIDFromContext : Ctx → Except GoError String
  /-- The call `t.redisClient.Get(ctx, key).Result()`. -/
  RedisGet : String → Except GoError String
  /-- The call `json.Unmarshal([]byte(cached), &cachedTodos)` on a nil slice. -/
  UnmarshalTodos : String → Except GoError (List TodoResponse)
  /-- The call `json.Unmarshal([]byte(cached), &cachedTodo)` on a zero struct. -/
  UnmarshalTodo : String → Except GoError TodoResponse
  /-- The call `json.Marshal(result)` on a slice. -/
  MarshalTodos : List TodoResponse → Except GoError String
  /-- The call `json.Marshal(response)` on one response. -/
  MarshalTodo : TodoResponse → Except GoError String
  /-- The call `t.todoRepo.GetAll(ctx, userID)`. -/
  GetAll : String → Except GoError (List Todo)
  /-- The call `t.todoRepo.GetByID(ctx, id)`; a nil todo is `none`. -/
  GetByID : String → Except GoError (Option Todo)
  /-- The call `t.todoRepo.Update(ctx, id, todo)`. -/
  Update : String → Todo → Except GoError Unit
  /-- The call `t.todoRepo.Delete(ctx, id)`. -/
  Delete : String → Except GoError Unit

/-- The method `generateTodoResponse`. -/
def generateTodoResponse (todo : Todo) : TodoResponse :=
  ⟨todo.ID, todo.Title, todo.Description, todo.UserID⟩

/-- The second half of `GetAllTodos`, from the comment `If not in cache, get
from database` on; `pre` holds the calls made before. -/
def getAllFromDatabase (t : Deps) (userId : String) (pre : List Event) :
    Traced (Completion (Except GoError (List TodoResponse))) :=
  match t.GetAll userId with
  | .error err => ⟨.returned (.error err), pre ++ [.RepoGetAll userId]⟩
  | .ok todos =>
    let result := todos.map generateTodoResponse
    match t.MarshalTodos result with
    | .ok jsonData =>
      ⟨.returned (.ok result),
        pre ++ [.RepoGetAll userId, .RedisSet todoListCacheKey jsonData]⟩
    | .error _ => ⟨.returned (.ok result), pre ++ [.RepoGetAll userId]⟩

/-- The method `GetAllTodos`. The index expression `cachedTodos[0]` panics on an
empty slice. -/
def GetAllTodos (t : Deps) (ctx : Ctx) :
    Traced (Completion (Except GoError (List TodoResponse))) :=
  match t.GetUserIDFromContext ctx with
  | .error err => ⟨.returned (.error err), []⟩
  | .ok userId =>
    match t.RedisGet todoListCacheKey with
    | .ok cached =>
      match t.UnmarshalTodos cached with
      | .ok cachedTodos =>
        match cachedTodos with
        | [] =>
          ⟨.panicked "runtime error: index out of range [0] with length 0",
            [.RedisGet todoListCacheKey]⟩
        | first :: _ =>
          if first.UserID ≠ userId then
            ⟨.returned (.error errUnauthorized), [.RedisGet todoListCacheKey]⟩
          else ⟨.returned (.ok cachedTodos), [.RedisGet todoListCacheKey]⟩
      | .error _ => getAllFromDatabase t userId [.RedisGet todoListCacheKey]
    | .error _ => getAllFromDatabase t userId [.RedisGet todoListCacheKey]

/-- The second half of `GetTodoByID`, from the comment `If not in cache or
invalid cache, get from database` on. -/
def getByIDFromDatabase (t : Deps) (id userId cacheKey : String) (pre : List Event) :
    Traced (Except GoError TodoResponse) :=
  match t.GetByID id with
  | .error err => ⟨.error err, pre ++ [.RepoGetByID id]⟩
  | .ok none => ⟨.error (Sprintf errTodoNotFound id), pre ++ [.RepoGetByID id]⟩
  | .ok (some todo) =>
    if todo.UserID ≠ userId then ⟨.error errUnauthorized, pre ++ [.RepoGetByID id]⟩
    else
      let response := generateTodoResponse todo
      match t.MarshalTodo response with
      | .ok jsonData => ⟨.ok response, pre ++ [.RepoGetByID id, .RedisSet cacheKey jsonData]⟩
      | .error _ => ⟨.ok response, pre ++ [.RepoGetByID id]⟩

/-- The method `GetTodoByID`. -/
def GetTodoByID (t : Deps) (ctx : Ctx) (id : String) : Traced (Except GoError TodoResponse) :=
  let cacheKey := Sprintf todoCacheKey id
  match t.GetUserIDFromContext ctx with
  | .error err => ⟨.error err, []⟩
  | .ok userId =>
    match t.RedisGet cacheKey with
    | .ok cached =>
      match t.UnmarshalTodo cached with
      | .ok cachedTodo =>
        if cachedTodo.UserID = userId then ⟨.ok cachedTodo, [.RedisGet cacheKey]⟩
        else ⟨.error errUnauthorized, [.RedisGet cacheKey]⟩
      | .error _ => getByIDFromDatabase t id userId cacheKey [.RedisGet cacheKey]
    | .error _ => getByIDFromDatabase t id userId cacheKey [.RedisGet cacheKey]

/-- The method `UpdateTodo`. -/
def UpdateTodo (t : Deps) (ctx : Ctx) (id : String) (todo : UpdateTodoRequest) :
    Traced (Except GoError TodoResponse) :=
  match t.GetByID id with
  | .error err => ⟨.error err, [.RepoGetByID id]⟩
  | .ok none => ⟨.error (Sprintf errTodoNotFound id), [.RepoGetByID id]⟩
  | .ok (some existingTodo) =>
    match t.GetUserIDFromContext ctx with
    | .error err => ⟨.error err, [.RepoGetByID id]⟩
    | .ok userId =>
      if existingTodo.UserID ≠ userId then ⟨.error errUnauthorized, [.RepoGetByID id]⟩
      else
        let existingTodo : Todo :=
          { existingTodo with Title := todo.Title, Description := todo.Description }
        match t.Update id existingTodo with
        | .error err => ⟨.error err, [.RepoGetByID id, .RepoUpdate id existingTodo]⟩
        | .ok _ =>
          ⟨.ok (generateTodoResponse existingTodo),
            [.RepoGetByID id, .RepoUpdate id existingTodo,
              .RedisDel (Sprintf todoCacheKey id), .RedisDel todoListCacheKey]⟩

/-- The method `DeleteTodo`; the nil error is `.ok ()`. -/
def DeleteTodo (t : Deps) (ctx : Ctx) (id : String) : Traced (Except GoError Unit) :=
  match t.GetByID id with
  | .error err => ⟨.error err, [.RepoGetByID id]⟩
  | .ok none => ⟨.error (Sprintf errTodoNotFound id), [.RepoGetByID id]⟩
  | .ok (some existingTodo) =>
    match t.GetUserIDFromContext ctx with
    | .error err => ⟨.error err, [.RepoGetByID id]⟩
    | .ok userId =>
      if existingTodo.UserID ≠ userId then ⟨.error errUnauthorized, [.RepoGetByID id]⟩
      else
        ⟨t.Delete id,
          [.RepoGetByID id, .RedisDel (Sprintf todoCacheKey id), .RedisDel todoListCacheKey,
            .RepoDelete id]⟩

end Services

/-! ## More of `internal/interfaces/http/handlers/todo_handler.go`: the handlers by id -/

namespace Handlers

/-- What the methods `DeleteTodo` and `GetTodoByID` of `handlers.TodoHandler`
call outside their own file: the route parameters, the todo service, and the
response helpers of `internal/utils`. -/
structure TodoByIDDeps where
  /-- The call `c.Params(key)`. -/
  Params : Ctx → String → String
  /-- The call `h.todoService.DeleteTodo(c, id)`; the nil error is `.ok ()`. -/
  DeleteTodo : Ctx → String → Except GoError Unit
  /-- The call `h.todoService.GetTodoByID(c, id)`. -/
  GetTodoByID : Ctx → String → Except GoError TodoResponse
  /-- The call `utils.SuccessResponse(c, message, data)`. -/
  SuccessResponse : String → JSONValue → Response
  /-- The call `utils.ErrorResponse(c, statusCode, message)`. -/
  ErrorResponse : Nat → String → Response

/-- The method `TodoHandler.DeleteTodo`. -/
def DeleteTodo (h : TodoByIDDeps) (c : Ctx) : Response :=
  let id := h.Params c "id"
  if id = "" then h.ErrorResponse StatusBadRequest "id is required"
  else
    match h.DeleteTodo c id with
    | .error err =>
      if err = "Unauthorized" then h.ErrorResponse StatusUnauthorized err
      else if err = "Not found todo with id: " ++ id then h.ErrorResponse StatusNotFound err
      else h.ErrorResponse StatusBadRequest err
    | .ok _ => h.SuccessResponse "Todo deleted successfully" .null

/-- The method `TodoHandler.GetTodoByID`. -/
def GetTodoByID (h : TodoByIDDeps) (c : Ctx) : Response :=
  let id := h.Params c "id"
  if id = "" then h.ErrorResponse StatusBadRequest "id is required"
  else
    match h.GetTodoByID c id with
    | .error err =>
      if err = "Unauthorized" then h.ErrorResponse StatusUnauthorized err
      else if err = "Not found todo with id: " ++ id then h.ErrorResponse StatusNotFound err
      else h.ErrorResponse StatusInternalServerError err
    | .ok todo => h.SuccessResponse "Todo fetched successfully" (.todo todo)

end Handlers

/-! ## A sample deployment, on which the theorems are instantiated

The collaborators below are small stand-ins: a JSON reader that understands
only the wrapper `\x7b"data":"..."\x7d` over plain printable characters (on which
it agrees with `encoding/json`), and shift ciphers with a one-byte header in
place of RSA and AES. -/

namespace Sample

/-- The bytes of an ASCII text. -/
def ascii (s : String) : Bytes := s.toList.map (fun ch => Fin.ofNat ch.toNat)

/-- The characters of a byte string. -/
def chars (bs : Bytes) : List Char := bs.map (fun b => Char.ofNat b.val)

/-- The JSON reader of the sample: the wrapper with a plain string inside. -/
def Unmarshal (body : Bytes) : Except GoError RequestBody :=
  let s := chars body
  let pre := "\x7b\"data\":\"".toList
  let suf := "\"\x7d".toList
  let inner := (s.drop pre.length).take (s.length - pre.length - suf.length)
  if s = pre ++ inner ++ suf ∧
      inner.all (fun ch => ch ≠ '"' ∧ ch ≠ '\\' ∧ 0x20 ≤ ch.toNat ∧ ch.toNat < 0x7f) then
    .ok ⟨inner⟩
  else .error "invalid character looking for beginning of value"

/-- The JSON validity check of the sample: a few literal documents. -/
def Valid (data : Bytes) : Bool :=
  decide (data ∈ [ascii "null", ascii "true", ascii "[]", ascii "\x7b\x7d"])

/-- The key file of the sample holds the shift 3. -/
def LoadPrivateKey (path : String) : Except GoError Nat :=
  if path = "keys/private.pem" then .ok 3
  else .error ("open " ++ path ++ ": no such file or directory")

/-- The public-key encryption of the sample: header byte 1, every byte shifted by 3. -/
def EncryptWithPublicKey (msg : Bytes) : Bytes := 1 :: msg.map (fun b => b + 3)

/-- The private-key decryption of the sample. -/
def DecryptWithPrivateKey (key : Nat) (ciphertext : Bytes) : Except GoError Bytes :=
  match ciphertext with
  | 1 :: rest => .ok (rest.map (fun b => b - Fin.ofNat key))
  | _ => .error "crypto/rsa: decryption error"

/-- The symmetric encryption of the sample: header byte 2, every byte shifted
by the first byte of the key. -/
def EncryptAES (key msg : Bytes) : Bytes := 2 :: msg.map (fun b => b + key.headD 0)

/-- The symmetric decryption of the sample. -/
def DecryptAES (key ciphertext : Bytes) : Except GoError Bytes :=
  match ciphertext with
  | 2 :: rest => .ok (rest.map (fun b => b - key.headD 0))
  | _ => .error "cipher: message authentication failed"

/-- The sample environment of the middleware. -/
@[reducible] def env : Env where
  PrivateKey := Nat
  Unmarshal := Unmarshal
  Valid := Valid
  LoadPrivateKey := LoadPrivateKey
  DecryptWithPrivateKey := DecryptWithPrivateKey
  DecryptAES := DecryptAES
  renderByte := fun ch => ch.toString

/-- A request with the given content type and body. -/
def request (contentType : String) (body : Bytes) : Ctx :=
  ⟨contentType, [], body, "/api/decrypt", "/api/decrypt", []⟩

/-- The envelope of the document `null` under the symmetric key `[7]`. -/
def envelope : List Char :=
  EncodeToString (EncryptWithPublicKey [7]) ++ ':' :: EncodeToString (EncryptAES [7] (ascii "null"))

/-- The body carrying `envelope`. -/
def goodBody : Bytes := ascii "\x7b\"data\":\"010a:02757c7373\"\x7d"

/-- The context the downstream handler sees after `goodBody` was decrypted. -/
def decrypted : Ctx :=
  ⟨"application/json", [], ascii "null", "/api/decrypt", "/api/decrypt",
    [("decryptedBody", ascii "null")]⟩

/-- A body whose key part does not unwrap (wrong header byte). -/
def badKeyBody : Bytes := ascii "\x7b\"data\":\"000a:02757c7373\"\x7d"

/-- A body whose payload part does not decrypt (wrong header byte). -/
def badPayloadBody : Bytes := ascii "\x7b\"data\":\"010a:00757c7373\"\x7d"

/-- The token manager of the sample: every refresh token but `good` is rejected,
with a reason that depends on the token. -/
def routes : Routes.Deps where
  GetUserIDFromContext := fun c =>
    if c.authorization = [] then .error "user not authenticated" else .ok "user-1"
  Logout := fun _ => .ok ()
  RefreshToken := fun token =>
    if token = "good".toList then
      .ok (fun t => match t with
        | .AccessToken => "access-2"
        | .RefreshToken => "refresh-2")
    else if token = "old".toList then .error "token is expired"
    else .error "token has been revoked"

/-- A request carrying the given `Authorization` header. -/
def authRequest (authorization : String) : Ctx :=
  ⟨"", authorization.toList, [], "/api/auth", "/api/auth", []⟩

/-- The collaborators of `handlers.AuthHandler` in the sample: requests always
parse and validate, the auth service fails with the given error, and the
response helpers are those of the package `response`. -/
def handlers (err : GoError) : Handlers.Deps where
  LoginRequest := Unit
  BodyParserLogin := fun _ => .ok ()
  ValidateLogin := fun _ => []
  Login := fun _ _ => .error err
  BodyParserRefreshToken := fun _ => .ok ⟨"stale"⟩
  ValidateRefreshToken := fun _ => []
  RefreshToken := fun _ _ => .error err
  Logout := fun _ _ => .ok ()
  SuccessResponse := ResponsePkg.SuccessResponse
  ErrorResponse := ResponsePkg.ErrorResponse
  ValidationErrorResponse := fun _ =>
    ⟨422, [("success", .bool false), ("error", .str "Validation failed")]⟩

/-- The body carrying the envelope of the document `[]` under the key `[7]`. -/
def arrayBody : Bytes := ascii "\x7b\"data\":\"010a:026264\"\x7d"

/-- The body carrying the envelope of the document `\x7b\x7d` under the key `[7]`. -/
def objectBody : Bytes := ascii "\x7b\"data\":\"010a:028284\"\x7d"

/-- The context the downstream handler sees after the given document was decrypted. -/
def decryptedTo (doc : String) : Ctx :=
  ⟨"application/json", [], ascii doc, "/api/decrypt", "/api/decrypt",
    [("decryptedBody", ascii doc)]⟩

/-- An object document with a number outside the range of `float64`. -/
def bigNumberDoc : Bytes := ascii "\x7b\"a\":1e999\x7d"

/-- The sample environment with a JSON validity check that also knows
`bigNumberDoc`, which is valid JSON. -/
@[reducible] def wideEnv : Env where
  PrivateKey := Nat
  Unmarshal := Unmarshal
  Valid := fun data => Valid data || decide (data = bigNumberDoc)
  LoadPrivateKey := LoadPrivateKey
  DecryptWithPrivateKey := DecryptWithPrivateKey
  DecryptAES := DecryptAES
  renderByte := fun ch => ch.toString

/-- The body carrying the envelope of `bigNumberDoc` under the key `[7]`. -/
def bigNumberBody : Bytes :=
  ascii "\x7b\"data\":\""
    ++ (EncodeToString (EncryptWithPublicKey [7]) ++ ':' ::
        EncodeToString (EncryptAES [7] bigNumberDoc)).map (fun ch => Fin.ofNat ch.toNat)
    ++ ascii "\"\x7d"

/-- The collaborators of the route `POST /api/decrypt` in the sample: the four
documents that `Valid` accepts and `bigNumberDoc`, with their kinds, and the
response helpers of the package `response`. The empty object decodes into the
empty map, `bigNumberDoc` does not decode. -/
def decryptRoute : HttpRoutes.Deps where
  Kind := fun data =>
    if data = ascii "null" then some .null
    else if data = ascii "true" then some .boolean
    else if data = ascii "[]" then some .array
    else if data = ascii "\x7b\x7d" then some .object
    else if data = bigNumberDoc then some .object
    else none
  DecodeObject := fun data =>
    if data = ascii "\x7b\x7d" then .ok (ascii "\x7b\x7d")
    else .error "json: cannot unmarshal number 1e999 into Go value of type float64"
  UnmarshalErrorText := fun _ => "json: cannot unmarshal into Go value of type map[string]interface \x7b\x7d"
  SuccessResponse := ResponsePkg.SuccessResponse
  ErrorResponse := ResponsePkg.ErrorResponse

/-- The one user of the sample. -/
def alice : User := ⟨"user-1", "alice@example.com", "hash(correct horse)", "Alice"⟩

/-- The collaborators of `routes.AuthHandler.Login` in the sample: every body
parses into the given request, the database holds `alice`, and a password
matches the hash `hash(password)`. -/
def login (req : Routes.LoginRequest) : Routes.LoginDeps where
  BodyParser := fun _ => .ok req
  ValidateStruct := fun r =>
    (if r.Email = "" then [("Email", "required")] else []) ++
      (if r.Password = "" then [("Password", "required")] else [])
  FindUserByEmail := fun email =>
    if email = alice.Email then .found alice else .ErrRecordNotFound
  CheckPassword := fun password hash =>
    if hash = "hash(" ++ password ++ ")" then .ok ()
    else .error "crypto/bcrypt: hashedPassword is not the hash of the given password"
  GenerateTokenPair := fun user =>
    .ok (fun t => match t with
      | .AccessToken => "access:" ++ user.ID
      | .RefreshToken => "refresh:" ++ user.ID)

/-- The collaborators of `handlers.TodoHandler` in the sample: every body parses
into the given requests, the route parameter `id` is `7`, the user is `user-1`,
and the todo service stores what it is given. -/
def todoHandlers (req : TodoDTO) (update : UpdateTodoRequest) : Handlers.TodoDeps where
  BodyParserTodoDTO := fun _ => .ok req
  BodyParserUpdateTodoRequest := fun _ => .ok update
  Params := fun _ key => if key = "id" then "7" else ""
  GetUserIDFromContext := fun _ => .ok "user-1"
  CreateTodo := fun _ r => .ok ⟨"8", r.Title, r.Description, r.UserID⟩
  UpdateTodo := fun _ id r => .ok ⟨id, r.Title, r.Description, "user-1"⟩
  SuccessResponse := ResponsePkg.SuccessResponse
  CreatedResponse := fun message data =>
    ⟨StatusCreated, [("success", .bool true), ("message", .str message), ("data", data)]⟩
  ErrorResponse := ResponsePkg.ErrorResponse
  ValidationErrorResponse := fun _ =>
    ⟨422, [("success", .bool false), ("error", .str "Validation failed")]⟩

/-- The collaborators of `todoService` in the sample: a cache and a repository
given as lists, a fixed authenticated user, and a JSON codec that knows the
documents `null` and `[]` for lists. -/
def service (cache : List (String × String)) (repo : List Todo) (user : String) :
    Services.Deps where
  GetUserIDFromContext := fun _ => .ok user
  RedisGet := fun key =>
    match cache.lookup key with
    | some value => .ok value
    | none => .error "redis: nil"
  UnmarshalTodos := fun cached =>
    if cached = "null" ∨ cached = "[]" then .ok []
    else .error "invalid character looking for beginning of value"
  UnmarshalTodo := fun _ => .error "invalid character looking for beginning of value"
  MarshalTodos := fun ts => if ts = [] then .ok "null" else .ok "[...]"
  MarshalTodo := fun _ => .ok "\x7b...\x7d"
  GetAll := fun userID => .ok (repo.filter (fun todo => todo.UserID = userID))
  GetByID := fun id => .ok (repo.find? (fun todo => todo.ID = id))
  Update := fun _ _ => .ok ()
  Delete := fun _ => .ok ()

/-- A todo of `user-1`. -/
def todo7 : Todo := ⟨"7", "Buy milk", "Two litres", "user-1"⟩

/-- The handlers by id of the sample, over a todo service: the route parameter
`id` is the given one, and the response helpers are those of the package
`response`. -/
def todoByID (t : Services.Deps) (id : String) : Handlers.TodoByIDDeps where
  Params := fun _ key => if key = "id" then id else ""
  DeleteTodo := fun c i => (Services.DeleteTodo t c i).value
  GetTodoByID := fun c i => (Services.GetTodoByID t c i).value
  SuccessResponse := ResponsePkg.SuccessResponse
  ErrorResponse := ResponsePkg.ErrorResponse

/-- The update handler of the sample, over a todo service: every body parses
into the given request, and the route parameter `id` is the given one. -/
def todoUpdate (t : Services.Deps) (id : String) (update : UpdateTodoRequest) :
    Handlers.TodoDeps where
  BodyParserTodoDTO := fun _ => .error "unexpected end of JSON input"
  BodyParserUpdateTodoRequest := fun _ => .ok update
  Params := fun _ key => if key = "id" then id else ""
  GetUserIDFromContext := t.GetUserIDFromContext
  CreateTodo := fun _ _ => .error "not part of the sample"
  UpdateTodo := fun c i r => (Services.UpdateTodo t c i r).value
  SuccessResponse := ResponsePkg.SuccessResponse
  CreatedResponse := fun message data =>
    ⟨StatusCreated, [("success", .bool true), ("message", .str message), ("data", data)]⟩
  ErrorResponse := ResponsePkg.ErrorResponse
  ValidationErrorResponse := fun _ =>
    ⟨422, [("success", .bool false), ("error", .str "Validation failed")]⟩

end Sample

/-! ## Lemmas on `Split` -/

theorem Split_cons (c : Char) (cs : List Char) (sep : Char) :
    Split (c :: cs) sep =
      if c = sep then [] :: Split cs sep
      else
        match Split cs sep with
        | [] => [[c]]
        | p :: ps => (c :: p) :: ps := by
  rw [Split]

theorem Split_ne_nil (s : List Char) (sep : Char) : Split s sep ≠ [] := by
  induction s with
  | nil => simp [Split]
  | cons c cs ih =>
    unfold Split
    split
    · simp
    · split <;> simp

theorem Split_length (s : List Char) (sep : Char) :
    (Split s sep).length = s.count sep + 1 := by
  induction s with
  | nil => simp [Split]
  | cons c cs ih =>
    unfold Split
    by_cases h : c = sep
    · subst h; simp [ih]
    · have hne : ¬ (c == sep) = true := by simpa using h
      rw [if_neg h, List.count_cons, if_neg hne]
      split
      · rename_i heq; exact absurd heq (Split_ne_nil cs sep)
      · rename_i p ps heq; rw [heq] at ih; simpa using ih

theorem Split_no_sep (s : List Char) (sep : Char) (h : sep ∉ s) : Split s sep = [s] := by
  induction s with
  | nil => simp [Split]
  | cons c cs ih =>
    have hc : c ≠ sep := fun e => h (by simp [e])
    have hcs : sep ∉ cs := fun e => h (by simp [e])
    unfold Split
    rw [if_neg hc, ih hcs]

theorem Split_append_sep (l r : List Char) (sep : Char) (h : sep ∉ l) :
    Split (l ++ sep :: r) sep = l :: Split r sep := by
  induction l with
  | nil => simp [Split]
  | cons c cs ih =>
    have hc : c ≠ sep := fun e => h (by simp [e])
    have hcs : sep ∉ cs := fun e => h (by simp [e])
    show Split (c :: (cs ++ sep :: r)) sep = _
    rw [Split_cons, if_neg hc, ih hcs]

/-- Two parts exactly: one separator, and the parts are the two sides. -/
theorem Split_eq_pair (s : List Char) (sep : Char) (l r : List Char) :
    Split s sep = [l, r] ↔ s = l ++ sep :: r ∧ sep ∉ l ∧ sep ∉ r := by
  constructor
  · intro h
    induction s generalizing l with
    | nil => simp [Split] at h
    | cons c cs ih =>
      unfold Split at h
      by_cases hc : c = sep
      · subst hc
        simp only [if_true, List.cons.injEq] at h
        obtain ⟨hl, hr⟩ := h
        subst hl
        have hlen := Split_length cs c
        rw [hr] at hlen
        have hcnt : cs.count c = 0 := by simpa using hlen.symm
        have hnot : c ∉ cs := List.count_eq_zero.mp hcnt
        have hcs : cs = r := by
          have := Split_no_sep cs c hnot
          rw [hr] at this
          simpa using this.symm
        subst hcs
        simp [hnot]
      · rw [if_neg hc] at h
        split at h
        · simp at h
        · rename_i p ps heq
          simp only [List.cons.injEq] at h
          obtain ⟨hl, hps⟩ := h
          subst hl hps
          obtain ⟨h1, h2, h3⟩ := ih p heq
          refine ⟨by simp [h1], ?_, h3⟩
          intro hmem
          rcases List.mem_cons.mp hmem with e | e
          · exact hc e.symm
          · exact h2 e
  · rintro ⟨rfl, hl, hr⟩
    rw [Split_append_sep l r sep hl, Split_no_sep r sep hr]

/-! ## Lemmas on `encoding/hex` -/

theorem reverseHexTable_le_iff (c : Char) : reverseHexTable c ≤ 0x0f ↔ c ∈ hexDigits := by
  constructor
  · intro h
    unfold reverseHexTable at h
    split at h <;> first | decide | omega
  · intro h
    have hd : hexDigits = ['0', '1', '2', '3', '4', '5', '6', '7', '8', '9', 'a', 'b', 'c',
        'd', 'e', 'f', 'A', 'B', 'C', 'D', 'E', 'F'] := by decide
    rw [hd] at h
    simp only [List.mem_cons, List.mem_nil_iff, or_false] at h
    rcases h with h|h|h|h|h|h|h|h|h|h|h|h|h|h|h|h|h|h|h|h|h|h <;> subst h <;> decide

theorem DecodeString_pair (p q : Char) (rest : List Char) :
    DecodeString (p :: q :: rest) =
      if reverseHexTable p > 0x0f then .error (.InvalidByteError p)
      else if reverseHexTable q > 0x0f then .error (.InvalidByteError q)
      else
        match DecodeString rest with
        | .ok bs => .ok (Fin.ofNat ((reverseHexTable p <<< 4) ||| reverseHexTable q) :: bs)
        | .error e => .error e := by
  rw [DecodeString]

/-- Induction on a list two elements at a time, the way the decoder consumes it. -/
theorem list_pairs_induction {P : List Char → Prop} (h0 : P [])
    (h1 : ∀ p, P [p]) (h2 : ∀ p q rest, P rest → P (p :: q :: rest)) : ∀ s, P s := by
  intro s
  induction s using Nat.strongRecMeasure List.length with
  | ind s ih =>
    match s with
    | [] => exact h0
    | [p] => exact h1 p
    | p :: q :: rest => exact h2 p q rest (ih rest (by simp only [List.length_cons]; omega))

/-- The decoder succeeds exactly on the valid hex strings. -/
theorem DecodeString_ok_iff (s : List Char) :
    (∃ bs, DecodeString s = .ok bs) ↔ ValidHex s := by
  induction s using list_pairs_induction with
  | h0 => simp [DecodeString, ValidHex]
  | h1 p =>
    constructor
    · rintro ⟨bs, h⟩
      unfold DecodeString at h
      split at h <;> simp at h
    · rintro ⟨h, -⟩
      simp at h
  | h2 p q rest ih =>
    rw [DecodeString_pair]
    have hp := reverseHexTable_le_iff p
    have hq := reverseHexTable_le_iff q
    constructor
    · rintro ⟨bs, h⟩
      by_cases h1 : reverseHexTable p > 0x0f
      · simp [h1] at h
      · by_cases h2 : reverseHexTable q > 0x0f
        · simp [h1, h2] at h
        · rw [if_neg h1, if_neg h2] at h
          cases hrest : DecodeString rest with
          | error e => rw [hrest] at h; simp at h
          | ok bs2 =>
            obtain ⟨hlen, hall⟩ := ih.mp ⟨bs2, hrest⟩
            refine ⟨by simp only [List.length_cons]; omega, ?_⟩
            intro c hc
            simp only [List.mem_cons] at hc
            rcases hc with rfl | rfl | hc
            · exact hp.mp (by omega)
            · exact hq.mp (by omega)
            · exact hall c hc
    · rintro ⟨hlen, hall⟩
      have h1 : ¬ reverseHexTable p > 0x0f := by
        have := hp.mpr (hall p (by simp)); omega
      have h2 : ¬ reverseHexTable q > 0x0f := by
        have := hq.mpr (hall q (by simp)); omega
      rw [if_neg h1, if_neg h2]
      have hv : ValidHex rest :=
        ⟨by simp only [List.length_cons] at hlen; omega, fun c hc => hall c (by simp [hc])⟩
      obtain ⟨bs, hbs⟩ := ih.mpr hv
      exact ⟨_, by rw [hbs]⟩

theorem DecodeString_error_iff (s : List Char) :
    (∃ e, DecodeString s = .error e) ↔ ¬ ValidHex s := by
  rw [← DecodeString_ok_iff]
  cases DecodeString s <;> simp

set_option maxRecDepth 100000 in
/-- Per byte: its two digits are hex digits, are not the separator, and decode
back to the byte. -/
theorem hex_digits_of_byte : ∀ v : Fin 256,
    reverseHexTable (hextable.getD (v.val >>> 4) '0') ≤ 0x0f ∧
    reverseHexTable (hextable.getD (v.val &&& 0x0f) '0') ≤ 0x0f ∧
    hextable.getD (v.val >>> 4) '0' ≠ ':' ∧
    hextable.getD (v.val &&& 0x0f) '0' ≠ ':' ∧
    (Fin.ofNat ((reverseHexTable (hextable.getD (v.val >>> 4) '0') <<< 4) |||
      reverseHexTable (hextable.getD (v.val &&& 0x0f) '0')) : Fin 256) = v := by
  decide

/-- Decoding inverts encoding. -/
theorem DecodeString_EncodeToString (bs : Bytes) :
    DecodeString (EncodeToString bs) = .ok bs := by
  induction bs with
  | nil => rfl
  | cons v vs ih =>
    obtain ⟨h1, h2, -, -, h5⟩ := hex_digits_of_byte v
    rw [EncodeToString, DecodeString_pair, if_neg (by omega), if_neg (by omega), ih]
    simp only [h5]

/-- The encoder never emits the separator. -/
theorem colon_not_mem_EncodeToString (bs : Bytes) : ':' ∉ EncodeToString bs := by
  induction bs with
  | nil => simp [EncodeToString]
  | cons v vs ih =>
    obtain ⟨-, -, h3, h4, -⟩ := hex_digits_of_byte v
    rw [EncodeToString]
    simp only [List.mem_cons, not_or]
    exact ⟨fun e => h3 e.symm, fun e => h4 e.symm, ih⟩

/-! ## The validating middleware, `internal/interfaces/http/middleware` -/

namespace HttpMiddleware

/-- What an accepted body looks like. -/
theorem validate_ok_iff (env : Env) (body : Bytes) (reqBody : RequestBody) :
    validateAndProcessRequest env body = .ok reqBody ↔
      body ≠ [] ∧ env.Unmarshal body = .ok reqBody ∧
        ∃ part0 part1 encryptedKey encryptedData,
          Split reqBody.Data ':' = [part0, part1] ∧
          DecodeString part0 = .ok encryptedKey ∧ DecodeString part1 = .ok encryptedData := by
  unfold validateAndProcessRequest
  by_cases hb : body = []
  · simp [hb]
  · have hlen : ¬ body.length = 0 := by simpa using hb
    rw [if_neg hlen]
    cases hu : env.Unmarshal body with
    | error e => simp [hb]
    | ok rb =>
      simp only [hb, ne_eq, not_false_eq_true, Except.ok.injEq, true_and]
      by_cases hd : rb.Data = []
      · rw [if_pos hd]
        constructor
        · intro h; simp at h
        · rintro ⟨rfl, p0, p1, ek, ed, hs, -, -⟩
          rw [hd] at hs
          simp [Split] at hs
      · rw [if_neg hd]
        split
        · rename_i p0 p1 hs
          cases h0 : DecodeString p0 with
          | error e =>
            simp only [false_iff, not_and, not_exists, reduceCtorEq]
            rintro rfl q0 q1 ek ed hq hk -
            rw [hs] at hq
            simp only [List.cons.injEq, and_true] at hq
            rw [← hq.1, h0] at hk
            simp at hk
          | ok ek =>
            cases h1 : DecodeString p1 with
            | error e =>
              simp only [false_iff, not_and, not_exists, reduceCtorEq]
              rintro rfl q0 q1 ek2 ed hq - hd2
              rw [hs] at hq
              simp only [List.cons.injEq, and_true] at hq
              rw [← hq.2, h1] at hd2
              simp at hd2
            | ok ed =>
              simp only [Except.ok.injEq]
              constructor
              · rintro rfl
                exact ⟨rfl, p0, p1, ek, ed, hs, h0, h1⟩
              · rintro ⟨h, -⟩; exact h
        · rename_i hne
          simp only [false_iff, not_and, not_exists, reduceCtorEq]
          rintro rfl q0 q1 ek ed hq - -
          exact hne q0 q1 hq

/-- A rejected body is answered with status 400 and the validation error, after
one log line and nothing else. -/
theorem DecryptMiddleware_of_validate_error (env : Env) (privateKeyPath : String) (c : Ctx)
    (err : GoError) (hct : c.contentType = "application/json")
    (hv : validateAndProcessRequest env c.body = .error err) :
    DecryptMiddleware env privateKeyPath c =
      ⟨.respond ⟨StatusBadRequest, [("error", .str err)]⟩,
        [.Printf "Request validation failed: %v" err]⟩ := by
  simp [DecryptMiddleware, hct, hv]

/-- A wrapper whose data is not empty and does not hold exactly one separator
is rejected with the format message. -/
theorem validate_bad_part_count (env : Env) (body : Bytes) (reqBody : RequestBody)
    (hb : body ≠ []) (hu : env.Unmarshal body = .ok reqBody) (hd : reqBody.Data ≠ [])
    (hc : reqBody.Data.count ':' ≠ 1) :
    validateAndProcessRequest env body = .error formatErrorMessage := by
  have hlen : ¬ body.length = 0 := by simpa using hb
  unfold validateAndProcessRequest
  rw [if_neg hlen, hu]
  simp only [if_neg hd]
  split
  · rename_i p0 p1 hs
    have := Split_length reqBody.Data ':'
    rw [hs] at this
    simp only [List.length_cons, List.length_nil] at this
    omega
  · rfl

/-- One separator in `l ++ ':' :: r` means none in `l` and none in `r`. -/
theorem count_one_split (l r : List Char) (h : (l ++ ':' :: r).count ':' = 1) :
    ':' ∉ l ∧ ':' ∉ r := by
  rw [List.count_append, List.count_cons_self] at h
  constructor
  · exact List.count_eq_zero.mp (by omega)
  · exact List.count_eq_zero.mp (by omega)

/-- C2: `validateAndProcessRequest` accepts a body exactly when it is not empty,
unmarshals into the wrapper, and its data holds exactly one `:` with a valid hex
string (even length, hex digits only) on each side. A data string that is not
empty and holds no `:` (such as `deadbeef`) or two or more is rejected with the
format message, which the middleware answers with status 400. -/
theorem validateAndProcessRequest_accepts_iff (env : Env) (body : Bytes) :
    ((∃ reqBody, validateAndProcessRequest env body = .ok reqBody) ↔
      (body ≠ [] ∧ ∃ reqBody, env.Unmarshal body = .ok reqBody ∧
        reqBody.Data.count ':' = 1 ∧
        ∃ l r, reqBody.Data = l ++ ':' :: r ∧ ValidHex l ∧ ValidHex r)) ∧
    (∀ reqBody, body ≠ [] → env.Unmarshal body = .ok reqBody → reqBody.Data ≠ [] →
      reqBody.Data.count ':' ≠ 1 →
      validateAndProcessRequest env body = .error formatErrorMessage ∧
      ∀ (privateKeyPath : String) (c : Ctx), c.contentType = "application/json" →
        c.body = body →
        (DecryptMiddleware env privateKeyPath c).value =
          .respond ⟨400, [("error", .str formatErrorMessage)]⟩) := by
  refine ⟨⟨?_, ?_⟩, ?_⟩
  · rintro ⟨rb, h⟩
    obtain ⟨hb, hu, p0, p1, ek, ed, hs, h0, h1⟩ := (validate_ok_iff env body rb).mp h
    have hlen := Split_length rb.Data ':'
    rw [hs] at hlen
    obtain ⟨hdata, -, -⟩ := (Split_eq_pair rb.Data ':' p0 p1).mp hs
    refine ⟨hb, rb, hu, ?_, p0, p1, hdata, ?_, ?_⟩
    · simp only [List.length_cons, List.length_nil] at hlen; omega
    · exact (DecodeString_ok_iff p0).mp ⟨ek, h0⟩
    · exact (DecodeString_ok_iff p1).mp ⟨ed, h1⟩
  · rintro ⟨hb, rb, hu, hcount, l, r, hdata, hl, hr⟩
    obtain ⟨ek, h0⟩ := (DecodeString_ok_iff l).mpr hl
    obtain ⟨ed, h1⟩ := (DecodeString_ok_iff r).mpr hr
    rw [hdata] at hcount
    obtain ⟨hnl, hnr⟩ := count_one_split l r hcount
    refine ⟨rb, (validate_ok_iff env body rb).mpr ⟨hb, hu, l, r, ek, ed, ?_, h0, h1⟩⟩
    exact (Split_eq_pair rb.Data ':' l r).mpr ⟨hdata, hnl, hnr⟩
  · intro rb hb hu hd hc
    have hv := validate_bad_part_count env body rb hb hu hd hc
    refine ⟨hv, ?_⟩
    intro path c hct hbody
    subst hbody
    rw [DecryptMiddleware_of_validate_error env path c _ hct hv]
    rfl

/-- C2 at the body `\x7b"data":"deadbeef"\x7d` of the sample deployment. -/
theorem validateAndProcessRequest_accepts_iff_witness :
    validateAndProcessRequest Sample.env (Sample.ascii "\x7b\"data\":\"deadbeef\"\x7d") =
        .error formatErrorMessage ∧
      (DecryptMiddleware Sample.env "keys/private.pem"
          (Sample.request "application/json"
            (Sample.ascii "\x7b\"data\":\"deadbeef\"\x7d"))).value =
        .respond ⟨400, [("error", .str formatErrorMessage)]⟩ :=
  have h := (validateAndProcessRequest_accepts_iff Sample.env
    (Sample.ascii "\x7b\"data\":\"deadbeef\"\x7d")).2 ⟨"deadbeef".toList⟩
    (by decide) (by decide) (by decide) (by decide)
  ⟨h.1, h.2 "keys/private.pem" _ (by decide) rfl⟩

/-- The stages of `decryptData` on an envelope whose two parts decode. -/
theorem decryptData_of_parts (env : Env) (privateKeyPath : String) (data part0 part1 : List Char)
    (encryptedKey encryptedData : Bytes) (hs : Split data ':' = [part0, part1])
    (h0 : DecodeString part0 = .ok encryptedKey) (h1 : DecodeString part1 = .ok encryptedData) :
    decryptData env privateKeyPath data =
      match env.LoadPrivateKey privateKeyPath with
      | .error err =>
        ⟨.error ("failed to load private key: " ++ err), [.LoadPrivateKey privateKeyPath]⟩
      | .ok privateKey =>
        match env.DecryptWithPrivateKey privateKey encryptedKey with
        | .error err =>
          ⟨.error ("failed to decrypt AES key: " ++ err),
            [.LoadPrivateKey privateKeyPath, .DecryptWithPrivateKey encryptedKey]⟩
        | .ok aesKey =>
          match env.DecryptAES aesKey encryptedData with
          | .error err =>
            ⟨.error ("failed to decrypt message: " ++ err),
              [.LoadPrivateKey privateKeyPath, .DecryptWithPrivateKey encryptedKey,
                .DecryptAES aesKey encryptedData]⟩
          | .ok decryptedData =>
            ⟨.ok decryptedData,
              [.LoadPrivateKey privateKeyPath, .DecryptWithPrivateKey encryptedKey,
                .DecryptAES aesKey encryptedData]⟩ := by
  unfold decryptData
  cases env.LoadPrivateKey privateKeyPath with
  | error e => rfl
  | ok pk => simp only [hs, h0, h1]

/-- The handling of an `application/json` request ends in exactly one of two
ways: every stage succeeded and the downstream handler runs, or some stage
failed and a 400 response with an `error` field is sent. -/
theorem DecryptMiddleware_json_cases (env : Env) (privateKeyPath : String) (c : Ctx)
    (hct : c.contentType = "application/json") :
    (∃ (reqBody : RequestBody) (privateKey : env.PrivateKey) (part0 part1 : List Char)
        (encryptedKey encryptedData aesKey plaintext : Bytes),
      validateAndProcessRequest env c.body = .ok reqBody ∧
      env.LoadPrivateKey privateKeyPath = .ok privateKey ∧
      Split reqBody.Data ':' = [part0, part1] ∧
      DecodeString part0 = .ok encryptedKey ∧
      DecodeString part1 = .ok encryptedData ∧
      env.DecryptWithPrivateKey privateKey encryptedKey = .ok aesKey ∧
      env.DecryptAES aesKey encryptedData = .ok plaintext ∧
      env.Valid plaintext = true ∧
      DecryptMiddleware env privateKeyPath c =
        ⟨.next ((((c.SetBody plaintext).SetContentType "application/json").SetRequestURI
            c.originalURL).Locals "decryptedBody" plaintext),
          [.LoadPrivateKey privateKeyPath, .DecryptWithPrivateKey encryptedKey,
            .DecryptAES aesKey encryptedData]⟩) ∨
    (¬ AllStagesSucceed env privateKeyPath c.body ∧
      ∃ msg, (DecryptMiddleware env privateKeyPath c).value =
        .respond ⟨StatusBadRequest, [("error", .str msg)]⟩) := by
  cases hv : validateAndProcessRequest env c.body with
  | error err =>
    right
    refine ⟨?_, err, ?_⟩
    · rintro ⟨rb, pk, q0, q1, ek, ed, k, pt, hv2, -⟩
      rw [hv] at hv2
      simp at hv2
    · rw [DecryptMiddleware_of_validate_error env privateKeyPath c err hct hv]
  | ok rb =>
    obtain ⟨-, -, p0, p1, ek, ed, hs, h0, h1⟩ := (validate_ok_iff env c.body rb).mp hv
    have hd := decryptData_of_parts env privateKeyPath rb.Data p0 p1 ek ed hs h0 h1
    have key : ∀ (P : Prop), (∀ (pk : env.PrivateKey) (k pt : Bytes),
        env.LoadPrivateKey privateKeyPath = .ok pk →
        env.DecryptWithPrivateKey pk ek = .ok k →
        env.DecryptAES k ed = .ok pt → env.Valid pt = true → P) →
        AllStagesSucceed env privateKeyPath c.body → P := by
      intro P hP
      rintro ⟨rb2, pk, q0, q1, ek2, ed2, k, pt, hv2, hl, hs2, hq0, hq1, hrsa, haes, hvalid⟩
      rw [hv] at hv2
      simp only [Except.ok.injEq] at hv2
      subst hv2
      rw [hs] at hs2
      simp only [List.cons.injEq, and_true] at hs2
      obtain ⟨e0, e1⟩ := hs2
      subst e0 e1
      rw [h0] at hq0
      rw [h1] at hq1
      simp only [Except.ok.injEq] at hq0 hq1
      subst hq0 hq1
      exact hP pk k pt hl hrsa haes hvalid
    cases hl : env.LoadPrivateKey privateKeyPath with
    | error e =>
      right
      refine ⟨key _ (fun pk k pt h1 _ _ _ => by rw [hl] at h1; simp at h1),
        decryptFailedMessage, ?_⟩
      simp [DecryptMiddleware, hct, hv, hd, hl]
    | ok pk =>
      cases hrsa : env.DecryptWithPrivateKey pk ek with
      | error e =>
        right
        refine ⟨key _ (fun pk2 k pt h1 h2 _ _ => ?_), decryptFailedMessage, ?_⟩
        · rw [hl] at h1
          simp only [Except.ok.injEq] at h1
          subst h1
          rw [hrsa] at h2
          simp at h2
        · simp [DecryptMiddleware, hct, hv, hd, hl, hrsa]
      | ok k =>
        cases haes : env.DecryptAES k ed with
        | error e =>
          right
          refine ⟨key _ (fun pk2 k2 pt h1 h2 h3 _ => ?_), decryptFailedMessage, ?_⟩
          · rw [hl] at h1
            simp only [Except.ok.injEq] at h1
            subst h1
            rw [hrsa] at h2
            simp only [Except.ok.injEq] at h2
            subst h2
            rw [haes] at h3
            simp at h3
          · simp [DecryptMiddleware, hct, hv, hd, hl, hrsa, haes]
        | ok pt =>
          by_cases hvalid : env.Valid pt = true
          · left
            refine ⟨rb, pk, p0, p1, ek, ed, k, pt, rfl, rfl, hs, h0, h1, hrsa, haes, hvalid, ?_⟩
            simp [DecryptMiddleware, hct, hv, hd, hl, hrsa, haes, hvalid]
          · right
            refine ⟨key _ (fun pk2 k2 pt2 h1 h2 h3 h4 => ?_),
              "Decrypted data is not valid JSON", ?_⟩
            · rw [hl] at h1
              simp only [Except.ok.injEq] at h1
              subst h1
              rw [hrsa] at h2
              simp only [Except.ok.injEq] at h2
              subst h2
              rw [haes] at h3
              simp only [Except.ok.injEq] at h3
              subst h3
              exact hvalid h4
            · simp [DecryptMiddleware, hct, hv, hd, hl, hrsa, haes, hvalid]

/-- C1: on an `application/json` request the downstream handler is invoked
exactly when every stage succeeded (validation, key load, key unwrap, payload
decryption, JSON validity); in every other case the answer is status 400 with a
JSON object carrying an `error` field, and the downstream handler is not invoked. -/
theorem DecryptMiddleware_next_iff_all_stages (env : Env) (privateKeyPath : String) (c : Ctx)
    (hct : c.contentType = "application/json") :
    ((∃ c2, (DecryptMiddleware env privateKeyPath c).value = .next c2) ↔
      AllStagesSucceed env privateKeyPath c.body) ∧
    (¬ AllStagesSucceed env privateKeyPath c.body →
      (∃ msg, (DecryptMiddleware env privateKeyPath c).value =
        .respond ⟨400, [("error", .str msg)]⟩) ∧
      ∀ c2, (DecryptMiddleware env privateKeyPath c).value ≠ .next c2) := by
  rcases DecryptMiddleware_json_cases env privateKeyPath c hct with
    ⟨rb, pk, p0, p1, ek, ed, k, pt, hv, hl, hs, h0, h1, hrsa, haes, hvalid, hrun⟩ | ⟨hno, msg, hmsg⟩
  · have hall : AllStagesSucceed env privateKeyPath c.body :=
      ⟨rb, pk, p0, p1, ek, ed, k, pt, hv, hl, hs, h0, h1, hrsa, haes, hvalid⟩
    refine ⟨⟨fun _ => hall, fun _ => ⟨_, by rw [hrun]⟩⟩, fun h => absurd hall h⟩
  · refine ⟨⟨?_, fun h => absurd h hno⟩, fun _ => ⟨⟨msg, hmsg⟩, ?_⟩⟩
    · rintro ⟨c2, h2⟩
      rw [hmsg] at h2
      simp at h2
    · intro c2 h2
      rw [hmsg] at h2
      simp at h2

/-- C1 on two requests of the sample deployment: a well-formed envelope reaches
the downstream handler, the body `\x7b"data":"deadbeef"\x7d` does not. -/
theorem DecryptMiddleware_next_iff_all_stages_witness :
    (∃ c2, (DecryptMiddleware Sample.env "keys/private.pem"
        (Sample.request "application/json" Sample.goodBody)).value = .next c2) ∧
    ∃ msg, (DecryptMiddleware Sample.env "keys/private.pem"
        (Sample.request "application/json"
          (Sample.ascii "\x7b\"data\":\"deadbeef\"\x7d"))).value =
      .respond ⟨400, [("error", .str msg)]⟩ :=
  ⟨(DecryptMiddleware_next_iff_all_stages Sample.env "keys/private.pem"
      (Sample.request "application/json" Sample.goodBody) (by decide)).1.mpr
      ⟨⟨Sample.envelope⟩, (3 : Nat), "010a".toList, "02757c7373".toList, [1, 10],
        [2, 117, 124, 115, 115], [7], Sample.ascii "null",
        by decide, by decide, by decide, by decide, by decide, by decide, by decide, by decide⟩,
    ((DecryptMiddleware_next_iff_all_stages Sample.env "keys/private.pem"
      (Sample.request "application/json" (Sample.ascii "\x7b\"data\":\"deadbeef\"\x7d"))
      (by decide)).2 (by
        rintro ⟨rb, pk, q0, q1, ek, ed, k, pt, hv, -⟩
        have hv2 : validateAndProcessRequest Sample.env
            (Sample.request "application/json"
              (Sample.ascii "\x7b\"data\":\"deadbeef\"\x7d")).body =
            .error formatErrorMessage := by decide
        rw [hv2] at hv
        simp at hv)).1⟩

/-- C5: when the downstream handler is invoked for an `application/json`
request, the body it sees is the AES decryption, under the unwrapped key, of the
hex-decoded right part of the submitted envelope, the key being the private-key
decryption of the hex-decoded left part; that body is valid JSON, the content
type is `application/json`, and the local `decryptedBody` holds the same bytes. -/
theorem DecryptMiddleware_next_body (env : Env) (privateKeyPath : String) (c c2 : Ctx)
    (hct : c.contentType = "application/json")
    (hnext : (DecryptMiddleware env privateKeyPath c).value = .next c2) :
    ∃ (reqBody : RequestBody) (left right : List Char) (privateKey : env.PrivateKey)
      (encryptedKey encryptedData aesKey : Bytes),
      env.Unmarshal c.body = .ok reqBody ∧
      reqBody.Data = left ++ ':' :: right ∧
      DecodeString left = .ok encryptedKey ∧
      DecodeString right = .ok encryptedData ∧
      env.LoadPrivateKey privateKeyPath = .ok privateKey ∧
      env.DecryptWithPrivateKey privateKey encryptedKey = .ok aesKey ∧
      env.DecryptAES aesKey encryptedData = .ok c2.body ∧
      env.Valid c2.body = true ∧
      c2.contentType = "application/json" ∧
      c2.getLocal "decryptedBody" = some c2.body := by
  rcases DecryptMiddleware_json_cases env privateKeyPath c hct with
    ⟨rb, pk, p0, p1, ek, ed, k, pt, hv, hl, hs, h0, h1, hrsa, haes, hvalid, hrun⟩ | ⟨-, msg, hmsg⟩
  · rw [hrun] at hnext
    simp only [Outcome.next.injEq] at hnext
    subst hnext
    obtain ⟨-, hu, -⟩ := (validate_ok_iff env c.body rb).mp hv
    obtain ⟨hdata, -, -⟩ := (Split_eq_pair rb.Data ':' p0 p1).mp hs
    refine ⟨rb, p0, p1, pk, ek, ed, k, hu, hdata, h0, h1, hl, hrsa, ?_, ?_, rfl, ?_⟩
    · simpa [Ctx.Locals, Ctx.SetBody, Ctx.SetContentType, Ctx.SetRequestURI] using haes
    · simpa [Ctx.Locals, Ctx.SetBody, Ctx.SetContentType, Ctx.SetRequestURI] using hvalid
    · simp [Ctx.Locals, Ctx.SetBody, Ctx.SetContentType, Ctx.SetRequestURI, Ctx.getLocal]
  · rw [hmsg] at hnext
    simp at hnext

/-- C5 on the well-formed request of the sample deployment: the downstream
handler sees the document `null`. -/
theorem DecryptMiddleware_next_body_witness :
    (DecryptMiddleware Sample.env "keys/private.pem"
        (Sample.request "application/json" Sample.goodBody)).value = .next Sample.decrypted ∧
    ∃ (reqBody : RequestBody) (left right : List Char) (privateKey : Sample.env.PrivateKey)
      (encryptedKey encryptedData aesKey : Bytes),
      Sample.env.Unmarshal Sample.goodBody = .ok reqBody ∧
      reqBody.Data = left ++ ':' :: right ∧
      DecodeString left = .ok encryptedKey ∧
      DecodeString right = .ok encryptedData ∧
      Sample.env.LoadPrivateKey "keys/private.pem" = .ok privateKey ∧
      Sample.env.DecryptWithPrivateKey privateKey encryptedKey = .ok aesKey ∧
      Sample.env.DecryptAES aesKey encryptedData = .ok Sample.decrypted.body ∧
      Sample.env.Valid Sample.decrypted.body = true ∧
      Sample.decrypted.contentType = "application/json" ∧
      Sample.decrypted.getLocal "decryptedBody" = some Sample.decrypted.body :=
  ⟨by decide,
    DecryptMiddleware_next_body Sample.env "keys/private.pem"
      (Sample.request "application/json" Sample.goodBody) Sample.decrypted
      (by decide) (by decide)⟩

/-- A malformed envelope is rejected by the validation stage with one of its
five fixed messages. -/
theorem validate_malformed (env : Env) (body : Bytes) (hm : Malformed env body) :
    ∃ err, validateAndProcessRequest env body = .error err ∧ err ∈ validationMessages := by
  by_cases hb : body = []
  · exact ⟨"request body is empty", by simp [validateAndProcessRequest, hb],
      by simp [validationMessages]⟩
  · rcases hm with hm | ⟨rb, hu, hbad⟩
    · exact absurd hm hb
    · have hlen : ¬ body.length = 0 := by simpa using hb
      by_cases hd : rb.Data = []
      · exact ⟨"encrypted data is required in \'data\' field",
          by simp [validateAndProcessRequest, hb, hu, hd], by simp [validationMessages]⟩
      · by_cases hc : rb.Data.count ':' = 1
        · have hparts : ∃ p0 p1, Split rb.Data ':' = [p0, p1] := by
            have hl := Split_length rb.Data ':'
            rw [hc] at hl
            match hsp : Split rb.Data ':', hl with
            | [p0, p1], _ => exact ⟨p0, p1, rfl⟩
          obtain ⟨p0, p1, hs⟩ := hparts
          rcases hbad with hbad | ⟨part, hmem, hnv⟩
          · exact absurd hc hbad
          · rw [hs] at hmem
            unfold validateAndProcessRequest
            rw [if_neg hlen, hu]
            simp only [if_neg hd, hs]
            cases h0 : DecodeString p0 with
            | error e => exact ⟨_, rfl, by simp [validationMessages]⟩
            | ok ek =>
              cases h1 : DecodeString p1 with
              | error e => exact ⟨_, rfl, by simp [validationMessages]⟩
              | ok ed =>
                exfalso
                simp only [List.mem_cons, List.mem_nil_iff, or_false] at hmem
                rcases hmem with rfl | rfl
                · exact hnv ((DecodeString_ok_iff _).mp ⟨ek, h0⟩)
                · exact hnv ((DecodeString_ok_iff _).mp ⟨ed, h1⟩)
        · exact ⟨_, validate_bad_part_count env body rb hb hu hd hc,
            by simp [validationMessages]⟩

/-- C3: an `application/json` request with a malformed envelope (empty body, a
data string without exactly one `:`, or a part that is not valid hex) gets its
400 response without any call into the `crypto` package, and the message is the
format message of the validation stage, never the decryption-failure message. -/
theorem DecryptMiddleware_malformed (env : Env) (privateKeyPath : String) (c : Ctx)
    (hct : c.contentType = "application/json") (hm : Malformed env c.body) :
    ∃ err, validateAndProcessRequest env c.body = .error err ∧
      err ∈ validationMessages ∧ err ≠ decryptFailedMessage ∧
      (DecryptMiddleware env privateKeyPath c).value =
        .respond ⟨400, [("error", .str err)]⟩ ∧
      ∀ e ∈ (DecryptMiddleware env privateKeyPath c).trace, e.isCrypto = false := by
  obtain ⟨err, hv, hmem⟩ := validate_malformed env c.body hm
  have hne : ∀ m ∈ validationMessages, m ≠ decryptFailedMessage := by decide
  refine ⟨err, hv, hmem, hne err hmem, ?_, ?_⟩
  · rw [DecryptMiddleware_of_validate_error env privateKeyPath c err hct hv]
    rfl
  · rw [DecryptMiddleware_of_validate_error env privateKeyPath c err hct hv]
    intro e he
    simp only [List.mem_cons, List.mem_nil_iff, or_false] at he
    subst he
    rfl

/-- C3 on the body `\x7b"data":"zz:00"\x7d` of the sample deployment, whose key part
is not hex. -/
theorem DecryptMiddleware_malformed_witness :
    Malformed Sample.env (Sample.ascii "\x7b\"data\":\"zz:00\"\x7d") ∧
    ∃ err, validateAndProcessRequest Sample.env (Sample.ascii "\x7b\"data\":\"zz:00\"\x7d") =
        .error err ∧
      err ∈ validationMessages ∧ err ≠ decryptFailedMessage ∧
      (DecryptMiddleware Sample.env "keys/private.pem"
          (Sample.request "application/json" (Sample.ascii "\x7b\"data\":\"zz:00\"\x7d"))).value =
        .respond ⟨400, [("error", .str err)]⟩ ∧
      ∀ e ∈ (DecryptMiddleware Sample.env "keys/private.pem"
          (Sample.request "application/json"
            (Sample.ascii "\x7b\"data\":\"zz:00\"\x7d"))).trace, e.isCrypto = false :=
  have hm : Malformed Sample.env (Sample.ascii "\x7b\"data\":\"zz:00\"\x7d") :=
    Or.inr ⟨⟨"zz:00".toList⟩, by decide, Or.inr ⟨"zz".toList, by decide, by decide⟩⟩
  ⟨hm, DecryptMiddleware_malformed Sample.env "keys/private.pem"
    (Sample.request "application/json" (Sample.ascii "\x7b\"data\":\"zz:00\"\x7d"))
    (by decide) hm⟩

/-- C10: two validated `application/json` requests whose decryption fails, at
whatever stage, under whatever collaborators and with whatever underlying
error, receive the same response: status 400 with the fixed decryption-failure
message, in which the underlying error has no part. -/
theorem DecryptMiddleware_decrypt_failure_uniform (env1 env2 : Env)
    (path1 path2 : String) (c1 c2 : Ctx) (reqBody1 reqBody2 : RequestBody) (err1 err2 : GoError)
    (hct1 : c1.contentType = "application/json") (hct2 : c2.contentType = "application/json")
    (hv1 : validateAndProcessRequest env1 c1.body = .ok reqBody1)
    (hv2 : validateAndProcessRequest env2 c2.body = .ok reqBody2)
    (hd1 : (decryptData env1 path1 reqBody1.Data).value = .error err1)
    (hd2 : (decryptData env2 path2 reqBody2.Data).value = .error err2) :
    (DecryptMiddleware env1 path1 c1).value =
        .respond ⟨400, [("error", .str "Failed to decrypt data. Invalid or corrupted data.")]⟩ ∧
      (DecryptMiddleware env2 path2 c2).value = (DecryptMiddleware env1 path1 c1).value := by
  have h1 : (DecryptMiddleware env1 path1 c1).value =
      .respond ⟨400, [("error", .str "Failed to decrypt data. Invalid or corrupted data.")]⟩ := by
    simp only [DecryptMiddleware, hct1, hv1, hd1]
    rfl
  have h2 : (DecryptMiddleware env2 path2 c2).value =
      .respond ⟨400, [("error", .str "Failed to decrypt data. Invalid or corrupted data.")]⟩ := by
    simp only [DecryptMiddleware, hct2, hv2, hd2]
    rfl
  exact ⟨h1, by rw [h1, h2]⟩

/-- C10 on two requests of the sample deployment, one failing in the key unwrap
and one in the payload decryption. -/
theorem DecryptMiddleware_decrypt_failure_uniform_witness :
    (decryptData Sample.env "keys/private.pem" "000a:02757c7373".toList).value =
        .error "failed to decrypt AES key: crypto/rsa: decryption error" ∧
      (decryptData Sample.env "keys/private.pem" "010a:00757c7373".toList).value =
        .error "failed to decrypt message: cipher: message authentication failed" ∧
      (DecryptMiddleware Sample.env "keys/private.pem"
          (Sample.request "application/json" Sample.badKeyBody)).value =
        .respond ⟨400, [("error", .str "Failed to decrypt data. Invalid or corrupted data.")]⟩ ∧
      (DecryptMiddleware Sample.env "keys/private.pem"
          (Sample.request "application/json" Sample.badPayloadBody)).value =
        (DecryptMiddleware Sample.env "keys/private.pem"
          (Sample.request "application/json" Sample.badKeyBody)).value :=
  ⟨by decide, by decide,
    DecryptMiddleware_decrypt_failure_uniform Sample.env Sample.env "keys/private.pem"
      "keys/private.pem" (Sample.request "application/json" Sample.badKeyBody)
      (Sample.request "application/json" Sample.badPayloadBody)
      ⟨"000a:02757c7373".toList⟩ ⟨"010a:00757c7373".toList⟩
      "failed to decrypt AES key: crypto/rsa: decryption error"
      "failed to decrypt message: cipher: message authentication failed"
      (by decide) (by decide) (by decide) (by decide) (by decide) (by decide)⟩

/-- C4: round trip. When the private key loads, the private-key decryption
inverts the public-key encryption of the symmetric key `k`, and the symmetric
decryption under `k` inverts the symmetric encryption of `J`, then `decryptData`
on `hex(encrypted key) ++ ":" ++ hex(encrypted J)` returns exactly `J`, no error. -/
theorem decryptData_roundtrip (env : Env) (privateKeyPath : String)
    (privateKey : env.PrivateKey) (encryptKey : Bytes → Bytes)
    (encryptAES : Bytes → Bytes → Bytes) (k J : Bytes)
    (hload : env.LoadPrivateKey privateKeyPath = .ok privateKey)
    (hrsa : env.DecryptWithPrivateKey privateKey (encryptKey k) = .ok k)
    (haes : env.DecryptAES k (encryptAES k J) = .ok J) :
    (decryptData env privateKeyPath
      (EncodeToString (encryptKey k) ++ [':'] ++ EncodeToString (encryptAES k J))).value =
      .ok J := by
  have hs : Split (EncodeToString (encryptKey k) ++ [':'] ++ EncodeToString (encryptAES k J)) ':'
      = [EncodeToString (encryptKey k), EncodeToString (encryptAES k J)] := by
    rw [List.append_assoc, List.singleton_append,
      Split_append_sep _ _ ':' (colon_not_mem_EncodeToString _),
      Split_no_sep _ ':' (colon_not_mem_EncodeToString _)]
  rw [decryptData_of_parts env privateKeyPath _ _ _ _ _ hs
    (DecodeString_EncodeToString _) (DecodeString_EncodeToString _)]
  simp only [hload, hrsa, haes]

/-- C4 in the sample deployment: the document `null` under the key `[7]`. -/
theorem decryptData_roundtrip_witness :
    Sample.env.LoadPrivateKey "keys/private.pem" = .ok (3 : Nat) ∧
    (decryptData Sample.env "keys/private.pem"
      (EncodeToString (Sample.EncryptWithPublicKey [7]) ++ [':'] ++
        EncodeToString (Sample.EncryptAES [7] (Sample.ascii "null")))).value =
      .ok (Sample.ascii "null") :=
  ⟨by decide,
    decryptData_roundtrip Sample.env "keys/private.pem" (3 : Nat) Sample.EncryptWithPublicKey
      Sample.EncryptAES [7] (Sample.ascii "null") (by decide) (by decide) (by decide)⟩

end HttpMiddleware

/-! ## The aborting middleware, `internal/middleware` -/

namespace Middleware

/-- C6 (what the code does): on an `application/json` request whose body parses
and whose key loads, every client-caused envelope error ends the server process
through `log.Fatal`; no 4xx response is sent. -/
theorem DecryptMiddleware_exits_on_client_error (env : Env) (privateKeyPath : String) (c : Ctx)
    (reqBody : RequestBody) (privateKey : env.PrivateKey)
    (hct : c.contentType = "application/json") (hb : c.body ≠ [])
    (hu : env.Unmarshal c.body = .ok reqBody)
    (hl : env.LoadPrivateKey privateKeyPath = .ok privateKey)
    (herr : ClientEnvelopeError env privateKey reqBody.Data) :
    (DecryptMiddleware env privateKeyPath c).value = .exit 1 := by
  have hlen : ¬ c.body.length = 0 := by simpa using hb
  unfold DecryptMiddleware
  simp only [hct, ne_eq, not_true_eq_false, if_false, hlen, hu, hl]
  rcases herr with hc | ⟨p0, p1, hs, hbad⟩
  · split
    · rename_i q0 q1 hs
      have := Split_length reqBody.Data ':'
      rw [hs] at this
      simp only [List.length_cons, List.length_nil] at this
      omega
    · rfl
  · simp only [hs]
    rcases hbad with h0 | h1 | ⟨ek, ed, h0, h1, hcr⟩
    · obtain ⟨e, he⟩ := (DecodeString_error_iff p0).mpr h0
      simp only [he]
    · obtain ⟨e, he⟩ := (DecodeString_error_iff p1).mpr h1
      cases hd0 : DecodeString p0 with
      | error e0 => rfl
      | ok ek => simp only [he]
    · simp only [h0, h1]
      rcases hcr with ⟨e, he⟩ | ⟨k, e, hk, he⟩
      · simp only [he]
      · simp only [hk, he]

/-- C6 at the body `\x7b"data":"deadbeef"\x7d` of the sample deployment: the process
exits. -/
theorem DecryptMiddleware_exits_on_client_error_witness :
    ClientEnvelopeError Sample.env (3 : Nat) "deadbeef".toList ∧
    (DecryptMiddleware Sample.env "keys/private.pem"
      (Sample.request "application/json"
        (Sample.ascii "\x7b\"data\":\"deadbeef\"\x7d"))).value = .exit 1 :=
  have herr : ClientEnvelopeError Sample.env (3 : Nat) "deadbeef".toList := Or.inl (by decide)
  ⟨herr, DecryptMiddleware_exits_on_client_error Sample.env "keys/private.pem"
    (Sample.request "application/json" (Sample.ascii "\x7b\"data\":\"deadbeef\"\x7d"))
    ⟨"deadbeef".toList⟩ (3 : Nat) (by decide) (by decide) (by decide) (by decide) herr⟩

end Middleware

/-! ## The authentication handlers -/

namespace Routes

/-- The function `strings.TrimPrefix` removes a leading prefix. -/
theorem TrimPrefix_append (pre t : List Char) : TrimPrefix (pre ++ t) pre = t := by
  simp [TrimPrefix]

/-- The handler `routes.AuthHandler.Logout` answers with success only after the
token manager revoked the tokens of the authenticated user without error. -/
theorem Logout_success_only_after_logout (h : Deps) (c : Ctx)
    (hs : (Logout h c).value = ResponsePkg.SuccessResponse "Successfully logged out" .null) :
    ∃ userID, h.GetUserIDFromContext c = .ok userID ∧ h.Logout userID = .ok () ∧
      (Logout h c).trace = [.JWTLogout userID] := by
  unfold Logout at hs ⊢
  cases hu : h.GetUserIDFromContext c with
  | error e =>
    rw [hu] at hs
    simp [ResponsePkg.ErrorResponse, ResponsePkg.SuccessResponse, StatusUnauthorized,
      StatusOK] at hs
  | ok userID =>
    cases hl : h.Logout userID with
    | error e =>
      rw [hu] at hs
      simp only [hl] at hs
      simp [ResponsePkg.ErrorResponse, ResponsePkg.SuccessResponse, StatusInternalServerError,
        StatusOK] at hs
    | ok u =>
      refine ⟨userID, rfl, hl, ?_⟩
      simp only [hl]

/-- C8: two requests to `routes.AuthHandler.RefreshToken` with a non-empty
`Authorization` header whose refresh fails in the token manager receive the
same response, status 401 with the message `Invalid or expired refresh token`,
whatever the errors were; the token handed to the manager is the header value
without a leading `Bearer `. -/
theorem RefreshToken_failure_uniform (h1 h2 : Deps) (c1 c2 : Ctx) (err1 err2 : GoError)
    (hne1 : c1.authorization ≠ []) (hne2 : c2.authorization ≠ [])
    (hf1 : h1.RefreshToken (TrimPrefix c1.authorization "Bearer ".toList) = .error err1)
    (hf2 : h2.RefreshToken (TrimPrefix c2.authorization "Bearer ".toList) = .error err2) :
    (RefreshToken h1 c1).value =
        ⟨401, [("success", .bool false), ("error", .str "Invalid or expired refresh token")]⟩ ∧
      (RefreshToken h2 c2).value = (RefreshToken h1 c1).value ∧
      (RefreshToken h1 c1).trace =
        [.JWTRefreshToken (TrimPrefix c1.authorization "Bearer ".toList)] ∧
      (RefreshToken h2 c2).trace =
        [.JWTRefreshToken (TrimPrefix c2.authorization "Bearer ".toList)] ∧
      ∀ t : List Char, TrimPrefix ("Bearer ".toList ++ t) "Bearer ".toList = t := by
  have e1 : RefreshToken h1 c1 =
      ⟨ResponsePkg.ErrorResponse StatusUnauthorized "Invalid or expired refresh token",
        [.JWTRefreshToken (TrimPrefix c1.authorization "Bearer ".toList)]⟩ := by
    simp only [RefreshToken, hne1, if_false, hf1]
  have e2 : RefreshToken h2 c2 =
      ⟨ResponsePkg.ErrorResponse StatusUnauthorized "Invalid or expired refresh token",
        [.JWTRefreshToken (TrimPrefix c2.authorization "Bearer ".toList)]⟩ := by
    simp only [RefreshToken, hne2, if_false, hf2]
  rw [e1, e2]
  exact ⟨rfl, rfl, rfl, rfl, fun t => TrimPrefix_append _ t⟩

/-- C8 in the sample deployment: an expired and a revoked refresh token. -/
theorem RefreshToken_failure_uniform_witness :
    Sample.routes.RefreshToken "old".toList = .error "token is expired" ∧
    Sample.routes.RefreshToken "gone".toList = .error "token has been revoked" ∧
    (RefreshToken Sample.routes (Sample.authRequest "Bearer old")).value =
        ⟨401, [("success", .bool false), ("error", .str "Invalid or expired refresh token")]⟩ ∧
    (RefreshToken Sample.routes (Sample.authRequest "gone")).value =
        (RefreshToken Sample.routes (Sample.authRequest "Bearer old")).value ∧
    (RefreshToken Sample.routes (Sample.authRequest "Bearer old")).trace =
        [.JWTRefreshToken "old".toList] :=
  have h := RefreshToken_failure_uniform Sample.routes Sample.routes
    (Sample.authRequest "Bearer old") (Sample.authRequest "gone")
    "token is expired" "token has been revoked"
    (by decide) (by decide) rfl rfl
  ⟨rfl, rfl, h.1, h.2.1, h.2.2.1⟩

end Routes

namespace Handlers

/-- C7 (what the code does): the handler `handlers.AuthHandler.Logout` answers
with the success response for every request and calls no logout operation. -/
theorem Logout_succeeds_without_logout_call (h : Deps) (c : Ctx) :
    (Logout h c).value = h.SuccessResponse "Logout successful" .null ∧
      (Logout h c).trace = [] ∧
      ∀ e ∈ (Logout h c).trace, e.isLogout = false := by
  refine ⟨rfl, rfl, ?_⟩
  intro e he
  simp [Logout] at he

/-- C9 at two failing inputs: in the sample deployment an expired token and a
revoked token get different responses from `RefreshToken`, and two failed
logins with different reasons get different responses from `Login`. -/
theorem failure_response_depends_on_error :
    (RefreshToken (Sample.handlers "token is expired") (Sample.authRequest "")).value ≠
        (RefreshToken (Sample.handlers "token has been revoked") (Sample.authRequest "")).value ∧
      (Login (Sample.handlers "user not found") (Sample.authRequest "")).value ≠
        (Login (Sample.handlers "wrong password") (Sample.authRequest "")).value := by
  decide

/-- C9 (what the code does): a failed refresh and a failed login are answered
by `utils.ErrorResponse` with status 401 and the text of the auth service error
as message, so the response tells the failure reasons apart whenever their
error texts differ. -/
theorem failure_response_is_service_error (h : Deps) (c : Ctx)
    (req : RefreshTokenRequest) (login : h.LoginRequest) (err1 err2 : GoError)
    (hp1 : h.BodyParserRefreshToken c = .ok req) (hv1 : h.ValidateRefreshToken req = [])
    (hf1 : h.RefreshToken c req.RefreshToken = .error err1)
    (hp2 : h.BodyParserLogin c = .ok login) (hv2 : h.ValidateLogin login = [])
    (hf2 : h.Login c login = .error err2) :
    (RefreshToken h c).value = h.ErrorResponse 401 err1 ∧
      (Login h c).value = h.ErrorResponse 401 err2 := by
  constructor
  · simp only [RefreshToken, hp1, hv1, hf1]
    rfl
  · simp only [Login, hp2, hv2, hf2]
    rfl

/-- C9 in the sample deployment, for an expired token: the text of the service
error is in the response. -/
theorem failure_response_is_service_error_witness :
    (RefreshToken (Sample.handlers "token is expired") (Sample.authRequest "")).value =
        ⟨401, [("success", .bool false), ("error", .str "token is expired")]⟩ ∧
      (Login (Sample.handlers "token is expired") (Sample.authRequest "")).value =
        ⟨401, [("success", .bool false), ("error", .str "token is expired")]⟩ :=
  failure_response_is_service_error (Sample.handlers "token is expired")
    (Sample.authRequest "") ⟨"stale"⟩ () "token is expired" "token is expired"
    rfl rfl rfl rfl rfl rfl

end Handlers

/-! ## The two middleware variants side by side -/

/-- The stages of the `internal/middleware` variant on a body that parses into
an envelope whose two parts decode. -/
theorem Middleware.run_of_parts (env : Env) (privateKeyPath : String) (c : Ctx)
    (reqBody : RequestBody) (part0 part1 : List Char) (encryptedKey encryptedData : Bytes)
    (hct : c.contentType = "application/json") (hb : c.body ≠ [])
    (hu : env.Unmarshal c.body = .ok reqBody)
    (hs : Split reqBody.Data ':' = [part0, part1])
    (h0 : DecodeString part0 = .ok encryptedKey) (h1 : DecodeString part1 = .ok encryptedData) :
    Middleware.DecryptMiddleware env privateKeyPath c =
      match env.LoadPrivateKey privateKeyPath with
      | .error err =>
        ⟨.exit 1, [.LoadPrivateKey privateKeyPath, .Fatalf "Failed to load private key: %v" err]⟩
      | .ok privateKey =>
        match env.DecryptWithPrivateKey privateKey encryptedKey with
        | .error err =>
          ⟨.exit 1, [.LoadPrivateKey privateKeyPath, .DecryptWithPrivateKey encryptedKey,
            .Fatalf "Failed to decrypt AES key: %v" err]⟩
        | .ok aesKey =>
          match env.DecryptAES aesKey encryptedData with
          | .error err =>
            ⟨.exit 1, [.LoadPrivateKey privateKeyPath, .DecryptWithPrivateKey encryptedKey,
              .DecryptAES aesKey encryptedData, .Fatalf "Failed to decrypt message: %v" err]⟩
          | .ok decryptedData =>
            if ¬ env.Valid decryptedData then
              ⟨.respond ⟨StatusBadRequest, [("error", .str "Decrypted data is not valid JSON")]⟩,
                [.LoadPrivateKey privateKeyPath, .DecryptWithPrivateKey encryptedKey,
                  .DecryptAES aesKey encryptedData,
                  .PrintfBytes "Decrypted data: %s" decryptedData,
                  .Print "Decrypted data is not valid JSON"]⟩
            else
              ⟨.next ((((c.SetBody decryptedData).SetContentType
                  "application/json").SetRequestURI c.originalURL).Locals
                  "decryptedBody" decryptedData),
                [.LoadPrivateKey privateKeyPath, .DecryptWithPrivateKey encryptedKey,
                  .DecryptAES aesKey encryptedData,
                  .PrintfBytes "Decrypted data: %s" decryptedData]⟩ := by
  have hlen : ¬ c.body.length = 0 := by simpa using hb
  unfold Middleware.DecryptMiddleware
  simp only [hct, ne_eq, not_true_eq_false, if_false, hlen, hu]
  cases env.LoadPrivateKey privateKeyPath with
  | error e => rfl
  | ok pk => simp only [hs, h0, h1]

/-- The `internal/middleware` variant does not reach the downstream handler on
an `application/json` request whose envelope does not split into two parts that
both decode. -/
theorem Middleware.not_next_of_bad_parts (env : Env) (privateKeyPath : String) (c c2 : Ctx)
    (reqBody : RequestBody)
    (hct : c.contentType = "application/json")
    (hu : env.Unmarshal c.body = .ok reqBody)
    (hbad : ¬ ∃ part0 part1 encryptedKey encryptedData,
      Split reqBody.Data ':' = [part0, part1] ∧
      DecodeString part0 = .ok encryptedKey ∧ DecodeString part1 = .ok encryptedData) :
    (Middleware.DecryptMiddleware env privateKeyPath c).value ≠ .next c2 := by
  unfold Middleware.DecryptMiddleware
  simp only [hct, ne_eq, not_true_eq_false, if_false]
  by_cases hlen : c.body.length = 0
  · simp [hlen]
  · simp only [hlen, if_false, hu]
    cases env.LoadPrivateKey privateKeyPath with
    | error e => simp
    | ok pk =>
      simp only
      split
      · rename_i p0 p1 hs
        cases h0 : DecodeString p0 with
        | error e => simp
        | ok ek =>
          cases h1 : DecodeString p1 with
          | error e => simp
          | ok ed => exact absurd ⟨p0, p1, ek, ed, hs, h0, h1⟩ hbad
      · simp

/-- The `internal/middleware` variant on a request that is not JSON, has an
empty body, or does not parse: never a `next` on a changed context. -/
theorem Middleware.run_of_unparsed (env : Env) (privateKeyPath : String) (c : Ctx)
    (hct : c.contentType = "application/json")
    (hno : c.body = [] ∨ ∃ err, env.Unmarshal c.body = .error err) :
    ∀ c2, (Middleware.DecryptMiddleware env privateKeyPath c).value ≠ .next c2 := by
  intro c2
  unfold Middleware.DecryptMiddleware
  simp only [hct, ne_eq, not_true_eq_false, if_false]
  by_cases hlen : c.body.length = 0
  · simp [hlen]
  · rcases hno with hb | ⟨err, he⟩
    · exact absurd (by simp [hb]) hlen
    · simp [hlen, he]

/-- Both variants leave a request alone whose content type is not
`application/json`. -/
theorem DecryptMiddleware_passthrough_aux (env : Env) (privateKeyPath : String) (c : Ctx)
    (hct : c.contentType ≠ "application/json") :
    HttpMiddleware.DecryptMiddleware env privateKeyPath c = ⟨.next c, []⟩ ∧
      Middleware.DecryptMiddleware env privateKeyPath c = ⟨.next c, []⟩ := by
  constructor
  · simp [HttpMiddleware.DecryptMiddleware, hct]
  · simp [Middleware.DecryptMiddleware, hct]

/-- C14: a request whose content type is not exactly `application/json` goes
through both variants untouched: the downstream handler runs on the very same
context (body, headers, locals), and nothing was validated, loaded, decrypted
or logged. -/
theorem DecryptMiddleware_passthrough (env : Env) (privateKeyPath : String) (c : Ctx)
    (hct : c.contentType ≠ "application/json") :
    HttpMiddleware.DecryptMiddleware env privateKeyPath c = ⟨.next c, []⟩ ∧
      Middleware.DecryptMiddleware env privateKeyPath c = ⟨.next c, []⟩ :=
  DecryptMiddleware_passthrough_aux env privateKeyPath c hct

/-- C14 on a request of the sample deployment that declares a charset. -/
theorem DecryptMiddleware_passthrough_witness :
    (Sample.request "application/json; charset=utf-8" Sample.goodBody).contentType ≠
        "application/json" ∧
      HttpMiddleware.DecryptMiddleware Sample.env "keys/private.pem"
          (Sample.request "application/json; charset=utf-8" Sample.goodBody) =
        ⟨.next (Sample.request "application/json; charset=utf-8" Sample.goodBody), []⟩ ∧
      Middleware.DecryptMiddleware Sample.env "keys/private.pem"
          (Sample.request "application/json; charset=utf-8" Sample.goodBody) =
        ⟨.next (Sample.request "application/json; charset=utf-8" Sample.goodBody), []⟩ :=
  ⟨by decide,
    DecryptMiddleware_passthrough Sample.env "keys/private.pem"
      (Sample.request "application/json; charset=utf-8" Sample.goodBody) (by decide)⟩

/-- C19: the two variants agree on success. The variant of
`internal/interfaces/http/middleware` hands a context to the downstream handler
exactly when the variant of `internal/middleware` hands it the same context, so
in particular the same body. -/
theorem DecryptMiddleware_variants_agree_on_next (env : Env) (privateKeyPath : String)
    (c c2 : Ctx) :
    (HttpMiddleware.DecryptMiddleware env privateKeyPath c).value = .next c2 ↔
      (Middleware.DecryptMiddleware env privateKeyPath c).value = .next c2 := by
  by_cases hct : c.contentType = "application/json"
  · by_cases hparse : ∃ reqBody, env.Unmarshal c.body = .ok reqBody ∧ c.body ≠ []
    · obtain ⟨rb, hu, hb⟩ := hparse
      by_cases hparts : ∃ part0 part1 encryptedKey encryptedData,
          Split rb.Data ':' = [part0, part1] ∧
          DecodeString part0 = .ok encryptedKey ∧ DecodeString part1 = .ok encryptedData
      · obtain ⟨p0, p1, ek, ed, hs, h0, h1⟩ := hparts
        have hv : HttpMiddleware.validateAndProcessRequest env c.body = .ok rb :=
          (HttpMiddleware.validate_ok_iff env c.body rb).mpr ⟨hb, hu, p0, p1, ek, ed, hs, h0, h1⟩
        have hd := HttpMiddleware.decryptData_of_parts env privateKeyPath rb.Data p0 p1 ek ed
          hs h0 h1
        rw [Middleware.run_of_parts env privateKeyPath c rb p0 p1 ek ed hct hb hu hs h0 h1]
        cases hl : env.LoadPrivateKey privateKeyPath with
        | error e => simp [HttpMiddleware.DecryptMiddleware, hct, hv, hd, hl]
        | ok pk =>
          cases hrsa : env.DecryptWithPrivateKey pk ek with
          | error e => simp [HttpMiddleware.DecryptMiddleware, hct, hv, hd, hl, hrsa]
          | ok k =>
            cases haes : env.DecryptAES k ed with
            | error e => simp [HttpMiddleware.DecryptMiddleware, hct, hv, hd, hl, hrsa, haes]
            | ok pt =>
              by_cases hvalid : env.Valid pt = true
              · simp [HttpMiddleware.DecryptMiddleware, hct, hv, hd, hl, hrsa, haes, hvalid]
              · simp [HttpMiddleware.DecryptMiddleware, hct, hv, hd, hl, hrsa, haes, hvalid]
      · have h2 := Middleware.not_next_of_bad_parts env privateKeyPath c c2 rb hct hu hparts
        have hv : ∀ r, HttpMiddleware.validateAndProcessRequest env c.body ≠ .ok r := by
          intro r hr
          obtain ⟨-, hu2, q0, q1, ek, ed, hs, h0, h1⟩ :=
            (HttpMiddleware.validate_ok_iff env c.body r).mp hr
          rw [hu] at hu2
          simp only [Except.ok.injEq] at hu2
          subst hu2
          exact hparts ⟨q0, q1, ek, ed, hs, h0, h1⟩
        constructor
        · intro h1
          exfalso
          cases hval : HttpMiddleware.validateAndProcessRequest env c.body with
          | ok r => exact hv r hval
          | error err =>
            rw [HttpMiddleware.DecryptMiddleware_of_validate_error env privateKeyPath c err
              hct hval] at h1
            simp at h1
        · intro h; exact absurd h h2
    · have hno : c.body = [] ∨ ∃ err, env.Unmarshal c.body = .error err := by
        by_cases hb : c.body = []
        · exact Or.inl hb
        · right
          cases hu : env.Unmarshal c.body with
          | error err => exact ⟨err, rfl⟩
          | ok rb => exact absurd ⟨rb, hu, hb⟩ hparse
      have h2 := Middleware.run_of_unparsed env privateKeyPath c hct hno c2
      constructor
      · intro h1
        exfalso
        cases hval : HttpMiddleware.validateAndProcessRequest env c.body with
        | ok r =>
          obtain ⟨hb, hu, -⟩ := (HttpMiddleware.validate_ok_iff env c.body r).mp hval
          exact hparse ⟨r, hu, hb⟩
        | error err =>
          rw [HttpMiddleware.DecryptMiddleware_of_validate_error env privateKeyPath c err
            hct hval] at h1
          simp at h1
      · intro h; exact absurd h h2
  · rw [(DecryptMiddleware_passthrough_aux env privateKeyPath c hct).1,
      (DecryptMiddleware_passthrough_aux env privateKeyPath c hct).2]

/-! ## What reaches the log, and what a key that does not load leads to -/

/-- Every call recorded by `decryptData` is a call into the `crypto` package. -/
theorem HttpMiddleware.decryptData_trace_crypto (env : Env) (privateKeyPath : String)
    (encryptedInput : List Char) :
    ∀ e ∈ (HttpMiddleware.decryptData env privateKeyPath encryptedInput).trace,
      e.isCrypto = true := by
  intro e he
  unfold HttpMiddleware.decryptData at he
  repeat' split at he
  all_goals
    simp only [List.mem_cons, List.mem_nil_iff, or_false] at he
    rcases he with rfl | rfl | rfl <;> rfl

/-- The variant of `internal/interfaces/http/middleware` writes no byte string
to the log: none of its log lines has a byte-string argument. -/
theorem HttpMiddleware.DecryptMiddleware_logs_no_bytes (env : Env) (privateKeyPath : String)
    (c : Ctx) (data : Bytes) :
    ∀ e ∈ (HttpMiddleware.DecryptMiddleware env privateKeyPath c).trace,
      e.logsBytes data = false := by
  have hcrypto : ∀ (input : List Char) (e : Event),
      e ∈ (HttpMiddleware.decryptData env privateKeyPath input).trace →
      e.logsBytes data = false := by
    intro input e he
    have := HttpMiddleware.decryptData_trace_crypto env privateKeyPath input e he
    cases e <;> simp_all [Event.isCrypto, Event.logsBytes]
  intro e he
  unfold HttpMiddleware.DecryptMiddleware at he
  split at he
  · simp at he
  · split at he
    · simp only [List.mem_cons, List.mem_nil_iff, or_false] at he
      subst he
      rfl
    · rename_i rb hv
      simp only at he
      split at he
      · simp only [List.mem_append, List.mem_cons, List.mem_nil_iff, or_false] at he
        rcases he with he | rfl
        · exact hcrypto _ e he
        · rfl
      · split at he
        · simp only [List.mem_append, List.mem_cons, List.mem_nil_iff, or_false] at he
          rcases he with he | rfl
          · exact hcrypto _ e he
          · rfl
        · exact hcrypto _ e he

/-- What a `next` of the `internal/middleware` variant on an `application/json`
request looks like: the plaintext is in the body, and in the log. -/
theorem Middleware.next_inv (env : Env) (privateKeyPath : String) (c c2 : Ctx)
    (hct : c.contentType = "application/json")
    (hnext : (Middleware.DecryptMiddleware env privateKeyPath c).value = .next c2) :
    ∃ (encryptedKey encryptedData aesKey plaintext : Bytes),
      c2 = (((c.SetBody plaintext).SetContentType "application/json").SetRequestURI
        c.originalURL).Locals "decryptedBody" plaintext ∧
      (Middleware.DecryptMiddleware env privateKeyPath c).trace =
        [.LoadPrivateKey privateKeyPath, .DecryptWithPrivateKey encryptedKey,
          .DecryptAES aesKey encryptedData, .PrintfBytes "Decrypted data: %s" plaintext] := by
  by_cases hparse : ∃ reqBody, env.Unmarshal c.body = .ok reqBody ∧ c.body ≠ []
  · obtain ⟨rb, hu, hb⟩ := hparse
    by_cases hparts : ∃ part0 part1 encryptedKey encryptedData,
        Split rb.Data ':' = [part0, part1] ∧
        DecodeString part0 = .ok encryptedKey ∧ DecodeString part1 = .ok encryptedData
    · obtain ⟨p0, p1, ek, ed, hs, h0, h1⟩ := hparts
      have hrun := Middleware.run_of_parts env privateKeyPath c rb p0 p1 ek ed hct hb hu hs h0 h1
      rw [hrun] at hnext ⊢
      cases hl : env.LoadPrivateKey privateKeyPath with
      | error e => simp [hl] at hnext
      | ok pk =>
        cases hrsa : env.DecryptWithPrivateKey pk ek with
        | error e => simp [hl, hrsa] at hnext
        | ok k =>
          cases haes : env.DecryptAES k ed with
          | error e => simp [hl, hrsa, haes] at hnext
          | ok pt =>
            by_cases hvalid : env.Valid pt = true
            · simp only [hl, hrsa, haes, hvalid, not_true_eq_false, if_false,
                Outcome.next.injEq] at hnext
              exact ⟨ek, ed, k, pt, hnext.symm, by simp [hrsa, haes, hvalid]⟩
            · simp [hl, hrsa, haes, hvalid] at hnext
    · exact absurd hnext
        (Middleware.not_next_of_bad_parts env privateKeyPath c c2 rb hct hu hparts)
  · have hno : c.body = [] ∨ ∃ err, env.Unmarshal c.body = .error err := by
      by_cases hb : c.body = []
      · exact Or.inl hb
      · right
        cases hu : env.Unmarshal c.body with
        | error err => exact ⟨err, rfl⟩
        | ok rb => exact absurd ⟨rb, hu, hb⟩ hparse
    exact absurd hnext (Middleware.run_of_unparsed env privateKeyPath c hct hno c2)

/-- C11 (what the code does): whenever the `internal/middleware` variant hands
an `application/json` request to the downstream handler, it has written the
decrypted body to the log, through `log.Printf("Decrypted data: %s", ...)`. -/
theorem Middleware.DecryptMiddleware_logs_plaintext (env : Env) (privateKeyPath : String)
    (c c2 : Ctx) (hct : c.contentType = "application/json")
    (hnext : (Middleware.DecryptMiddleware env privateKeyPath c).value = .next c2) :
    Event.PrintfBytes "Decrypted data: %s" c2.body ∈
        (Middleware.DecryptMiddleware env privateKeyPath c).trace ∧
      ∃ e ∈ (Middleware.DecryptMiddleware env privateKeyPath c).trace,
        e.isLog = true ∧ e.logsBytes c2.body = true := by
  obtain ⟨ek, ed, k, pt, hc2, htrace⟩ := Middleware.next_inv env privateKeyPath c c2 hct hnext
  have hbody : c2.body = pt := by
    rw [hc2]
    rfl
  rw [htrace, hbody]
  refine ⟨by simp, .PrintfBytes "Decrypted data: %s" pt, by simp, rfl, ?_⟩
  simp [Event.logsBytes]

/-- C11 on the well-formed request of the sample deployment: the document
`null` is in the log. -/
theorem Middleware.DecryptMiddleware_logs_plaintext_witness :
    (Middleware.DecryptMiddleware Sample.env "keys/private.pem"
        (Sample.request "application/json" Sample.goodBody)).value = .next Sample.decrypted ∧
      Event.PrintfBytes "Decrypted data: %s" (Sample.ascii "null") ∈
        (Middleware.DecryptMiddleware Sample.env "keys/private.pem"
          (Sample.request "application/json" Sample.goodBody)).trace :=
  ⟨by decide,
    (Middleware.DecryptMiddleware_logs_plaintext Sample.env "keys/private.pem"
      (Sample.request "application/json" Sample.goodBody) Sample.decrypted
      (by decide) (by decide)).1⟩

/-- C12 as stated fails: in the sample deployment the well-formed request is
answered with status 400 when the key file does not load, and reaches the
downstream handler when it does. -/
theorem HttpMiddleware.key_load_failure_answered_with_400 :
    Sample.env.LoadPrivateKey "keys/missing.pem" =
        .error "open keys/missing.pem: no such file or directory" ∧
      (HttpMiddleware.DecryptMiddleware Sample.env "keys/missing.pem"
          (Sample.request "application/json" Sample.goodBody)).value =
        .respond ⟨400, [("error", .str "Failed to decrypt data. Invalid or corrupted data.")]⟩ ∧
      (HttpMiddleware.DecryptMiddleware Sample.env "keys/missing.pem"
          (Sample.request "application/json" Sample.goodBody)).trace =
        [.LoadPrivateKey "keys/missing.pem",
          .Printf "Decryption failed: %v"
            "failed to load private key: open keys/missing.pem: no such file or directory"] ∧
      (HttpMiddleware.DecryptMiddleware Sample.env "keys/private.pem"
          (Sample.request "application/json" Sample.goodBody)).value =
        .next Sample.decrypted := by
  decide

/-- C12 (amended): a private-key load failure is a per-request error. When
`LoadPrivateKey` fails while a validated `application/json` request is handled,
that request is answered with status 400 and the decryption-failure message,
the cause goes to the log only, and nothing else is called. -/
theorem HttpMiddleware.DecryptMiddleware_key_load_failure (env : Env)
    (privateKeyPath : String) (c : Ctx) (reqBody : RequestBody) (err : GoError)
    (hct : c.contentType = "application/json")
    (hv : HttpMiddleware.validateAndProcessRequest env c.body = .ok reqBody)
    (hl : env.LoadPrivateKey privateKeyPath = .error err) :
    HttpMiddleware.DecryptMiddleware env privateKeyPath c =
      ⟨.respond ⟨400, [("error", .str "Failed to decrypt data. Invalid or corrupted data.")]⟩,
        [.LoadPrivateKey privateKeyPath,
          .Printf "Decryption failed: %v" ("failed to load private key: " ++ err)]⟩ := by
  have hd : HttpMiddleware.decryptData env privateKeyPath reqBody.Data =
      ⟨.error ("failed to load private key: " ++ err), [.LoadPrivateKey privateKeyPath]⟩ := by
    simp [HttpMiddleware.decryptData, hl]
  simp only [HttpMiddleware.DecryptMiddleware, hct, hv, hd]
  rfl

/-- C12 (amended) in the sample deployment, with a key file that is missing. -/
theorem HttpMiddleware.DecryptMiddleware_key_load_failure_witness :
    HttpMiddleware.validateAndProcessRequest Sample.env Sample.goodBody =
        .ok ⟨Sample.envelope⟩ ∧
      HttpMiddleware.DecryptMiddleware Sample.env "keys/missing.pem"
          (Sample.request "application/json" Sample.goodBody) =
        ⟨.respond ⟨400, [("error", .str "Failed to decrypt data. Invalid or corrupted data.")]⟩,
          [.LoadPrivateKey "keys/missing.pem",
            .Printf "Decryption failed: %v"
              ("failed to load private key: " ++
                "open keys/missing.pem: no such file or directory")]⟩ :=
  ⟨by decide,
    HttpMiddleware.DecryptMiddleware_key_load_failure Sample.env "keys/missing.pem"
      (Sample.request "application/json" Sample.goodBody) ⟨Sample.envelope⟩
      "open keys/missing.pem: no such file or directory" (by decide) (by decide) (by decide)⟩

/-! ## The route `POST /api/decrypt` -/

namespace HttpRoutes

/-- C13 as stated fails: in the sample deployment the valid JSON document `[]`,
delivered in a correctly formed envelope, passes the middleware and is answered
with status 400 by the handler. -/
theorem decryptEndpoint_rejects_array :
    Sample.env.Valid (Sample.ascii "[]") = true ∧
      (HttpMiddleware.DecryptMiddleware Sample.env "keys/private.pem"
          (Sample.request "application/json" Sample.arrayBody)).value =
        .next (Sample.decryptedTo "[]") ∧
      decryptEndpoint Sample.env Sample.decryptRoute "keys/private.pem"
          (Sample.request "application/json" Sample.arrayBody) =
        .respond ⟨400, [("success", .bool false),
          ("error", .str "failed to unmarshal JSON data")]⟩ := by
  decide

/-- C13 (amended): when the middleware hands the document `J` to the handler of
`POST /api/decrypt`, the answer is the success response with the decoded map as
data when `J` is a JSON object whose members decode, the success response with
`null` as data when `J` is `null`, and status 400 with the message `failed to
unmarshal JSON data` when `J` is an array, a string, a number or a boolean, or
an object with a member that does not decode. -/
theorem decryptEndpoint_answers_by_kind (env : Env) (h : Deps) (privateKeyPath : String)
    (c c2 : Ctx)
    (hnext : (HttpMiddleware.DecryptMiddleware env privateKeyPath c).value = .next c2) :
    (∀ decoded, h.Kind c2.body = some .object → h.DecodeObject c2.body = .ok decoded →
      decryptEndpoint env h privateKeyPath c =
        .respond (h.SuccessResponse "OK" (.object decoded))) ∧
    (∀ err, h.Kind c2.body = some .object → h.DecodeObject c2.body = .error err →
      decryptEndpoint env h privateKeyPath c =
        .respond (h.ErrorResponse 400 "failed to unmarshal JSON data")) ∧
    (h.Kind c2.body = some .null →
      decryptEndpoint env h privateKeyPath c = .respond (h.SuccessResponse "OK" .null)) ∧
    (∀ kind, h.Kind c2.body = some kind → kind ≠ .object → kind ≠ .null →
      decryptEndpoint env h privateKeyPath c =
        .respond (h.ErrorResponse 400 "failed to unmarshal JSON data")) := by
  refine ⟨?_, ?_, ?_, ?_⟩
  · intro decoded hk hd
    simp [decryptEndpoint, hnext, decryptHandler, UnmarshalMap, hk, hd]
  · intro err hk hd
    simp [decryptEndpoint, hnext, decryptHandler, UnmarshalMap, hk, hd, StatusBadRequest]
  · intro hk
    simp [decryptEndpoint, hnext, decryptHandler, UnmarshalMap, hk]
  · intro kind hk hno hnn
    cases kind <;> simp_all [decryptEndpoint, decryptHandler, UnmarshalMap, StatusBadRequest]

/-- C13 (amended) in the sample deployment: the empty object is answered with
success and the empty map, the object `bigNumberDoc`, whose number does not fit
a `float64`, with status 400. -/
theorem decryptEndpoint_answers_by_kind_witness :
    ((HttpMiddleware.DecryptMiddleware Sample.env "keys/private.pem"
        (Sample.request "application/json" Sample.objectBody)).value =
      .next (Sample.decryptedTo "\x7b\x7d") ∧
    decryptEndpoint Sample.env Sample.decryptRoute "keys/private.pem"
        (Sample.request "application/json" Sample.objectBody) =
      .respond ⟨200, [("success", .bool true), ("message", .str "OK"),
        ("data", .object (Sample.ascii "\x7b\x7d"))]⟩) ∧
    (Sample.wideEnv.Valid Sample.bigNumberDoc = true ∧
    (HttpMiddleware.DecryptMiddleware Sample.wideEnv "keys/private.pem"
        (Sample.request "application/json" Sample.bigNumberBody)).value =
      .next (Sample.decryptedTo "\x7b\"a\":1e999\x7d") ∧
    decryptEndpoint Sample.wideEnv Sample.decryptRoute "keys/private.pem"
        (Sample.request "application/json" Sample.bigNumberBody) =
      .respond ⟨400, [("success", .bool false),
        ("error", .str "failed to unmarshal JSON data")]⟩) :=
  ⟨⟨by decide,
    (decryptEndpoint_answers_by_kind Sample.env Sample.decryptRoute "keys/private.pem"
      (Sample.request "application/json" Sample.objectBody) (Sample.decryptedTo "\x7b\x7d")
      (by decide)).1 (Sample.ascii "\x7b\x7d") (by decide) (by decide)⟩,
   ⟨by decide, by decide,
    (decryptEndpoint_answers_by_kind Sample.wideEnv Sample.decryptRoute "keys/private.pem"
      (Sample.request "application/json" Sample.bigNumberBody)
      (Sample.decryptedTo "\x7b\"a\":1e999\x7d") (by decide)).2.1
      "json: cannot unmarshal number 1e999 into Go value of type float64"
      (by decide) (by decide)⟩⟩

end HttpRoutes

/-! ## The login of `routes.AuthHandler` -/

namespace Routes

/-- What the login does once the request parsed and validated and the user was
found with a matching password. -/
theorem Login_of_checked (h : LoginDeps) (c : Ctx) (req : LoginRequest) (user : User)
    (hp : h.BodyParser c = .ok req) (hv : h.ValidateStruct req = [])
    (hf : h.FindUserByEmail req.Email = .found user)
    (hc : h.CheckPassword req.Password user.Password = .ok ()) :
    Login h c =
      match h.GenerateTokenPair user with
      | .error _ =>
        ⟨ResponsePkg.ErrorResponse StatusInternalServerError "Failed to generate tokens",
          [.FindUserByEmail req.Email, .CheckPassword req.Password user.Password,
            .GenerateTokenPair user]⟩
      | .ok tokens =>
        ⟨ResponsePkg.SuccessResponse "Login successful"
            (.auth ⟨tokens .AccessToken, tokens .RefreshToken, 15 * 60⟩),
          [.FindUserByEmail req.Email, .CheckPassword req.Password user.Password,
            .GenerateTokenPair user]⟩ := by
  simp only [Login, hp, hv, hf, hc, ne_eq, not_true_eq_false, if_false]

/-- The login generates tokens, or answers with tokens, only on the path where
every check passed. -/
theorem Login_inv (h : LoginDeps) (c : Ctx)
    (hreach : (∃ user, Event.GenerateTokenPair user ∈ (Login h c).trace) ∨
      ∃ a, ("data", JSONValue.auth a) ∈ (Login h c).value.body) :
    ∃ req user, h.BodyParser c = .ok req ∧ h.ValidateStruct req = [] ∧
      h.FindUserByEmail req.Email = .found user ∧
      h.CheckPassword req.Password user.Password = .ok () := by
  cases hp : h.BodyParser c with
  | error e =>
    exfalso
    rcases hreach with ⟨u, hu⟩ | ⟨a, ha⟩
    · simp [Login, hp] at hu
    · simp [Login, hp, ResponsePkg.ErrorResponse] at ha
  | ok req =>
    by_cases hv : h.ValidateStruct req = []
    · cases hf : h.FindUserByEmail req.Email with
      | ErrRecordNotFound =>
        exfalso
        rcases hreach with ⟨u, hu⟩ | ⟨a, ha⟩
        · simp [Login, hp, hv, hf] at hu
        · simp [Login, hp, hv, hf, ResponsePkg.ErrorResponse] at ha
      | failed e =>
        exfalso
        rcases hreach with ⟨u, hu⟩ | ⟨a, ha⟩
        · simp [Login, hp, hv, hf] at hu
        · simp [Login, hp, hv, hf, ResponsePkg.ErrorResponse] at ha
      | found user =>
        cases hc : h.CheckPassword req.Password user.Password with
        | error e =>
          exfalso
          rcases hreach with ⟨u, hu⟩ | ⟨a, ha⟩
          · simp [Login, hp, hv, hf, hc] at hu
          · simp [Login, hp, hv, hf, hc, ResponsePkg.ErrorResponse] at ha
        | ok u => exact ⟨req, user, rfl, hv, hf, hc⟩
    · exfalso
      rcases hreach with ⟨u, hu⟩ | ⟨a, ha⟩
      · simp [Login, hp, hv] at hu
      · simp [Login, hp, hv, ResponsePkg.ValidationErrorResponse] at ha

/-- C15: `routes.AuthHandler.Login` calls `GenerateTokenPair`, and answers with
a token pair, only if the request validated, a user was found for the email of
the request, and `CheckPassword` on the request password and the stored hash of
that user returned no error; the tokens in the answer are those generated for
that user. -/
theorem Login_tokens_only_after_checks (h : LoginDeps) (c : Ctx) :
    (∀ user, Event.GenerateTokenPair user ∈ (Login h c).trace →
      ∃ req, h.BodyParser c = .ok req ∧ h.ValidateStruct req = [] ∧
        h.FindUserByEmail req.Email = .found user ∧
        h.CheckPassword req.Password user.Password = .ok ()) ∧
    (∀ a, ("data", JSONValue.auth a) ∈ (Login h c).value.body →
      ∃ req user tokens, h.BodyParser c = .ok req ∧ h.ValidateStruct req = [] ∧
        h.FindUserByEmail req.Email = .found user ∧
        h.CheckPassword req.Password user.Password = .ok () ∧
        h.GenerateTokenPair user = .ok tokens ∧
        a = ⟨tokens .AccessToken, tokens .RefreshToken, 15 * 60⟩) := by
  constructor
  · intro user hmem
    obtain ⟨req, u, hp, hv, hf, hc⟩ := Login_inv h c (Or.inl ⟨user, hmem⟩)
    rw [Login_of_checked h c req u hp hv hf hc] at hmem
    have hu : user = u := by
      cases hg : h.GenerateTokenPair u with
      | error e => simpa [hg] using hmem
      | ok tokens => simpa [hg] using hmem
    subst hu
    exact ⟨req, hp, hv, hf, hc⟩
  · intro a hmem
    obtain ⟨req, u, hp, hv, hf, hc⟩ := Login_inv h c (Or.inr ⟨a, hmem⟩)
    rw [Login_of_checked h c req u hp hv hf hc] at hmem
    cases hg : h.GenerateTokenPair u with
    | error e => simp [hg, ResponsePkg.ErrorResponse] at hmem
    | ok tokens =>
      refine ⟨req, u, tokens, hp, hv, hf, hc, hg, ?_⟩
      simpa [hg, ResponsePkg.SuccessResponse] using hmem

/-- C15 in the sample deployment: the login of `alice` with her password. -/
theorem Login_tokens_only_after_checks_witness :
    ("data", JSONValue.auth ⟨"access:user-1", "refresh:user-1", 900⟩) ∈
        (Login (Sample.login ⟨"alice@example.com", "correct horse"⟩)
          (Sample.authRequest "")).value.body ∧
      ∃ req user tokens,
        (Sample.login ⟨"alice@example.com", "correct horse"⟩).BodyParser
            (Sample.authRequest "") = .ok req ∧
          (Sample.login ⟨"alice@example.com", "correct horse"⟩).ValidateStruct req = [] ∧
          (Sample.login ⟨"alice@example.com", "correct horse"⟩).FindUserByEmail req.Email =
            .found user ∧
          (Sample.login ⟨"alice@example.com", "correct horse"⟩).CheckPassword req.Password
            user.Password = .ok () ∧
          (Sample.login ⟨"alice@example.com", "correct horse"⟩).GenerateTokenPair user =
            .ok tokens ∧
          (⟨"access:user-1", "refresh:user-1", 900⟩ : AuthResponse) =
            ⟨tokens .AccessToken, tokens .RefreshToken, 15 * 60⟩ :=
  have hmem : ("data", JSONValue.auth ⟨"access:user-1", "refresh:user-1", 900⟩) ∈
      (Login (Sample.login ⟨"alice@example.com", "correct horse"⟩)
        (Sample.authRequest "")).value.body := by decide
  ⟨hmem, (Login_tokens_only_after_checks (Sample.login ⟨"alice@example.com", "correct horse"⟩)
    (Sample.authRequest "")).2 _ hmem⟩

/-- C20: a valid login request whose email matches no user and one whose email
matches a user but whose password check fails get the identical response,
status 401 with the message `Invalid credentials`. -/
theorem Login_unknown_email_same_as_wrong_password (h1 h2 : LoginDeps) (c1 c2 : Ctx)
    (req1 req2 : LoginRequest) (user : User) (err : GoError)
    (hp1 : h1.BodyParser c1 = .ok req1) (hv1 : h1.ValidateStruct req1 = [])
    (hf1 : h1.FindUserByEmail req1.Email = .ErrRecordNotFound)
    (hp2 : h2.BodyParser c2 = .ok req2) (hv2 : h2.ValidateStruct req2 = [])
    (hf2 : h2.FindUserByEmail req2.Email = .found user)
    (hc2 : h2.CheckPassword req2.Password user.Password = .error err) :
    (Login h1 c1).value =
        ⟨401, [("success", .bool false), ("error", .str "Invalid credentials")]⟩ ∧
      (Login h2 c2).value = (Login h1 c1).value := by
  have e1 : (Login h1 c1).value =
      ResponsePkg.ErrorResponse StatusUnauthorized "Invalid credentials" := by
    simp only [Login, hp1, hv1, hf1, ne_eq, not_true_eq_false, if_false]
  have e2 : (Login h2 c2).value =
      ResponsePkg.ErrorResponse StatusUnauthorized "Invalid credentials" := by
    simp only [Login, hp2, hv2, hf2, hc2, ne_eq, not_true_eq_false, if_false]
  rw [e1, e2]
  exact ⟨rfl, rfl⟩

/-- C20 in the sample deployment: an unknown email, and `alice` with a wrong
password. -/
theorem Login_unknown_email_same_as_wrong_password_witness :
    (Login (Sample.login ⟨"bob@example.com", "correct horse"⟩) (Sample.authRequest "")).value =
        ⟨401, [("success", .bool false), ("error", .str "Invalid credentials")]⟩ ∧
      (Login (Sample.login ⟨"alice@example.com", "wrong"⟩) (Sample.authRequest "")).value =
        (Login (Sample.login ⟨"bob@example.com", "correct horse"⟩)
          (Sample.authRequest "")).value :=
  Login_unknown_email_same_as_wrong_password
    (Sample.login ⟨"bob@example.com", "correct horse"⟩)
    (Sample.login ⟨"alice@example.com", "wrong"⟩) (Sample.authRequest "")
    (Sample.authRequest "") ⟨"bob@example.com", "correct horse"⟩ ⟨"alice@example.com", "wrong"⟩
    Sample.alice "crypto/bcrypt: hashedPassword is not the hash of the given password"
    rfl (by decide) (by decide) rfl (by decide) (by decide) (by decide)

end Routes

/-! ## The todo handlers and the todo service -/

namespace Handlers

/-- C16 (what the code does): `CreateTodo` and `UpdateTodo` hand every request
with a non-empty title and a non-empty description to the todo service,
whatever the lengths: the `min` and `max` of the `validate` tags are not checked. -/
theorem todo_handlers_ignore_length_tags (h : TodoDeps) (c : Ctx) (req : TodoDTO)
    (update : UpdateTodoRequest) (userID : String)
    (hp : h.BodyParserTodoDTO c = .ok req) (hu : h.GetUserIDFromContext c = .ok userID)
    (hpu : h.BodyParserUpdateTodoRequest c = .ok update) (hid : h.Params c "id" ≠ "")
    (ht : req.Title ≠ "") (hd : req.Description ≠ "")
    (hut : update.Title ≠ "") (hud : update.Description ≠ "") :
    (CreateTodo h c).trace = [.TodoServiceCreate { req with UserID := userID }] ∧
      (UpdateTodo h c).trace = [.TodoServiceUpdate (h.Params c "id") update] := by
  constructor
  · simp only [CreateTodo, hp, hu, Validators.ValidateCreateTodo, ht, hd, if_false,
      List.append_nil, List.length_nil, gt_iff_lt, Nat.lt_irrefl]
    cases h.CreateTodo c { req with UserID := userID } <;> rfl
  · simp only [UpdateTodo, hpu, hid, Validators.ValidateUpdateTodo, hut, hud, if_false,
      List.append_nil, List.length_nil, gt_iff_lt, Nat.lt_irrefl]
    cases h.UpdateTodo c (h.Params c "id") update with
    | ok r => rfl
    | error err =>
      simp only
      split
      · rfl
      · split <;> rfl

/-- C16 at a request of the sample deployment with the title `ab` and the
description `x`, which do not meet the tags: the todo service is called. -/
theorem todo_handlers_ignore_length_tags_witness :
    ¬ Validators.MeetsTags "ab" "x" ∧
      (CreateTodo (Sample.todoHandlers ⟨"", "ab", "x", ""⟩ ⟨"ab", "x"⟩)
          (Sample.authRequest "")).trace =
        [.TodoServiceCreate ⟨"", "ab", "x", "user-1"⟩] ∧
      (UpdateTodo (Sample.todoHandlers ⟨"", "ab", "x", ""⟩ ⟨"ab", "x"⟩)
          (Sample.authRequest "")).trace =
        [.TodoServiceUpdate "7" ⟨"ab", "x"⟩] :=
  ⟨by decide,
    todo_handlers_ignore_length_tags (Sample.todoHandlers ⟨"", "ab", "x", ""⟩ ⟨"ab", "x"⟩)
      (Sample.authRequest "") ⟨"", "ab", "x", ""⟩ ⟨"ab", "x"⟩ "user-1"
      rfl rfl rfl (by decide) (by decide) (by decide) (by decide) (by decide)⟩

end Handlers

namespace Services

/-- C17 (what the code does): `GetAllTodos` panics on the index expression when
the value cached under `todos` decodes to an empty list, and it caches such a
value itself: for a user without todos it spawns the `Set` of the encoding of
the empty result. -/
theorem GetAllTodos_panics_on_empty_cached_list (t : Deps) (ctx : Ctx) (userId cached : String)
    (hu : t.GetUserIDFromContext ctx = .ok userId)
    (hg : t.RedisGet todoListCacheKey = .ok cached)
    (hj : t.UnmarshalTodos cached = .ok []) :
    (GetAllTodos t ctx).value =
        .panicked "runtime error: index out of range [0] with length 0" ∧
      ∀ (t2 : Deps) (ctx2 : Ctx) (userId2 : String) (err : GoError) (jsonData : String),
        t2.GetUserIDFromContext ctx2 = .ok userId2 →
        t2.RedisGet todoListCacheKey = .error err →
        t2.GetAll userId2 = .ok [] →
        t2.MarshalTodos [] = .ok jsonData →
        (GetAllTodos t2 ctx2).value = .returned (.ok []) ∧
          Event.RedisSet "todos" jsonData ∈ (GetAllTodos t2 ctx2).trace := by
  constructor
  · simp only [GetAllTodos, hu, hg, hj]
  · intro t2 ctx2 userId2 err jsonData h1 h2 h3 h4
    simp only [GetAllTodos, h1, h2, getAllFromDatabase, h3, h4, List.map_nil]
    simp [todoListCacheKey]

/-- C17 in the sample deployment: a user without todos asks twice. The first
call caches `null`, the second one finds it and panics. -/
theorem GetAllTodos_panics_on_empty_cached_list_witness :
    ((GetAllTodos (Sample.service [] [] "user-1") (Sample.authRequest "")).value =
        .returned (.ok []) ∧
      Event.RedisSet "todos" "null" ∈
        (GetAllTodos (Sample.service [] [] "user-1") (Sample.authRequest "")).trace) ∧
    (GetAllTodos (Sample.service [("todos", "null")] [] "user-1")
        (Sample.authRequest "")).value =
      .panicked "runtime error: index out of range [0] with length 0" :=
  have h := GetAllTodos_panics_on_empty_cached_list
    (Sample.service [("todos", "null")] [] "user-1") (Sample.authRequest "") "user-1" "null"
    rfl (by decide) (by decide)
  ⟨h.2 (Sample.service [] [] "user-1") (Sample.authRequest "") "user-1" "redis: nil" "null"
    rfl (by decide) (by decide) (by decide), h.1⟩

end Services

namespace Services

/-- A todo that `getByIDFromDatabase` returns belongs to the given user. -/
theorem getByIDFromDatabase_owner (t : Deps) (id userId cacheKey : String) (pre : List Event)
    (r : TodoResponse) (h : (getByIDFromDatabase t id userId cacheKey pre).value = .ok r) :
    r.UserID = userId := by
  unfold getByIDFromDatabase at h
  split at h
  · simp at h
  · simp at h
  · rename_i todo hg
    by_cases ho : todo.UserID = userId
    · simp only [ho, ne_eq, not_true_eq_false, if_false] at h
      split at h
      · simp only [Except.ok.injEq] at h
        rw [← h]
        exact ho
      · simp only [Except.ok.injEq] at h
        rw [← h]
        exact ho
    · simp [ho] at h

/-- On a todo of another user `getByIDFromDatabase` answers `Unauthorized`. -/
theorem getByIDFromDatabase_other (t : Deps) (id userId cacheKey : String) (pre : List Event)
    (existing : Todo) (hg : t.GetByID id = .ok (some existing))
    (ho : existing.UserID ≠ userId) :
    (getByIDFromDatabase t id userId cacheKey pre).value = .error "Unauthorized" := by
  simp [getByIDFromDatabase, hg, ho, errUnauthorized]

/-- The calls that `getByIDFromDatabase` adds: the lookup, and the caching of a
todo it returns. -/
theorem getByIDFromDatabase_trace (t : Deps) (id userId cacheKey : String) (pre : List Event) :
    (getByIDFromDatabase t id userId cacheKey pre).trace = pre ++ [.RepoGetByID id] ∨
      ∃ jsonData, (getByIDFromDatabase t id userId cacheKey pre).trace =
        pre ++ [.RepoGetByID id, .RedisSet cacheKey jsonData] := by
  unfold getByIDFromDatabase
  cases t.GetByID id with
  | error err => exact Or.inl rfl
  | ok found =>
    cases found with
    | none => exact Or.inl rfl
    | some todo =>
      by_cases ho : todo.UserID = userId
      · simp only [ho, ne_eq, not_true_eq_false, if_false]
        cases t.MarshalTodo (generateTodoResponse todo) with
        | error err => exact Or.inl rfl
        | ok jsonData => exact Or.inr ⟨jsonData, rfl⟩
      · simp [ho]

/-- The calls of `GetTodoByID`: none, the cache lookup, or the cache lookup
followed by those of `getByIDFromDatabase`. -/
theorem GetTodoByID_trace (t : Deps) (ctx : Ctx) (id : String) :
    (GetTodoByID t ctx id).trace = [] ∨
      (GetTodoByID t ctx id).trace = [.RedisGet (Sprintf todoCacheKey id)] ∨
      (GetTodoByID t ctx id).trace =
        [.RedisGet (Sprintf todoCacheKey id), .RepoGetByID id] ∨
      ∃ jsonData, (GetTodoByID t ctx id).trace =
        [.RedisGet (Sprintf todoCacheKey id), .RepoGetByID id,
          .RedisSet (Sprintf todoCacheKey id) jsonData] := by
  have hdb : ∀ userId,
      (getByIDFromDatabase t id userId (Sprintf todoCacheKey id)
          [.RedisGet (Sprintf todoCacheKey id)]).trace =
        [.RedisGet (Sprintf todoCacheKey id), .RepoGetByID id] ∨
      ∃ jsonData, (getByIDFromDatabase t id userId (Sprintf todoCacheKey id)
          [.RedisGet (Sprintf todoCacheKey id)]).trace =
        [.RedisGet (Sprintf todoCacheKey id), .RepoGetByID id,
          .RedisSet (Sprintf todoCacheKey id) jsonData] := by
    intro userId
    rcases getByIDFromDatabase_trace t id userId (Sprintf todoCacheKey id)
      [.RedisGet (Sprintf todoCacheKey id)] with h | ⟨j, h⟩
    · exact Or.inl (by rw [h]; rfl)
    · exact Or.inr ⟨j, by rw [h]; rfl⟩
  unfold GetTodoByID
  cases t.GetUserIDFromContext ctx with
  | error err => exact Or.inl rfl
  | ok userId =>
    right
    simp only
    cases t.RedisGet (Sprintf todoCacheKey id) with
    | error err => exact Or.inr (hdb userId)
    | ok cached =>
      simp only
      cases t.UnmarshalTodo cached with
      | error err => exact Or.inr (hdb userId)
      | ok cachedTodo =>
        simp only
        by_cases ho : cachedTodo.UserID = userId
        · simp only [ho, if_true]
          exact Or.inl trivial
        · simp only [ho, if_false]
          exact Or.inl trivial

/-- C18: ownership is enforced on the single-todo operations. `GetTodoByID`
returns a todo, cached or stored, only if its `UserID` is the id of the
authenticated user; `UpdateTodo` and `DeleteTodo` reach the `Update` and
`Delete` of the repository only if the existing todo has that `UserID`; on a
todo of another user all three return the error `Unauthorized`, and the
repository is not modified. -/
theorem ownership_enforced (t : Deps) (ctx : Ctx) (id : String) (todo : UpdateTodoRequest) :
    (∀ r, (GetTodoByID t ctx id).value = .ok r →
      ∃ userId, t.GetUserIDFromContext ctx = .ok userId ∧ r.UserID = userId) ∧
    (∀ e ∈ (UpdateTodo t ctx id todo).trace, e.isRepoWrite = true →
      ∃ existing userId, t.GetByID id = .ok (some existing) ∧
        t.GetUserIDFromContext ctx = .ok userId ∧ existing.UserID = userId) ∧
    (∀ e ∈ (DeleteTodo t ctx id).trace, e.isRepoWrite = true →
      ∃ existing userId, t.GetByID id = .ok (some existing) ∧
        t.GetUserIDFromContext ctx = .ok userId ∧ existing.UserID = userId) ∧
    (∀ existing userId, t.GetByID id = .ok (some existing) →
      t.GetUserIDFromContext ctx = .ok userId → existing.UserID ≠ userId →
      (UpdateTodo t ctx id todo).value = .error "Unauthorized" ∧
      (∀ e ∈ (UpdateTodo t ctx id todo).trace, e.isRepoWrite = false) ∧
      (DeleteTodo t ctx id).value = .error "Unauthorized" ∧
      (∀ e ∈ (DeleteTodo t ctx id).trace, e.isRepoWrite = false) ∧
      ((∀ cached, t.RedisGet (Sprintf todoCacheKey id) = .ok cached →
          ∃ err, t.UnmarshalTodo cached = .error err) →
        (GetTodoByID t ctx id).value = .error "Unauthorized")) ∧
    (∀ cached cachedTodo userId, t.GetUserIDFromContext ctx = .ok userId →
      t.RedisGet (Sprintf todoCacheKey id) = .ok cached →
      t.UnmarshalTodo cached = .ok cachedTodo → cachedTodo.UserID ≠ userId →
      (GetTodoByID t ctx id).value = .error "Unauthorized") ∧
    (∀ e ∈ (GetTodoByID t ctx id).trace, e.isRepoWrite = false) := by
  refine ⟨?_, ?_, ?_, ?_, ?_, ?_⟩
  · intro r hr
    unfold GetTodoByID at hr
    cases hu : t.GetUserIDFromContext ctx with
    | error e => simp [hu] at hr
    | ok userId =>
      refine ⟨userId, rfl, ?_⟩
      simp only [hu] at hr
      split at hr
      · split at hr
        · rename_i cachedTodo _
          by_cases ho : cachedTodo.UserID = userId
          · simp only [ho, if_true, Except.ok.injEq] at hr
            rw [← hr]
            exact ho
          · simp [ho] at hr
        · exact getByIDFromDatabase_owner t id userId _ _ r hr
      · exact getByIDFromDatabase_owner t id userId _ _ r hr
  · intro e he hw
    unfold UpdateTodo at he
    cases hg : t.GetByID id with
    | error err =>
      simp only [hg, List.mem_cons, List.mem_nil_iff, or_false] at he
      subst he
      simp [Event.isRepoWrite] at hw
    | ok found =>
      cases found with
      | none =>
        simp only [hg, List.mem_cons, List.mem_nil_iff, or_false] at he
        subst he
        simp [Event.isRepoWrite] at hw
      | some existing =>
        cases hu : t.GetUserIDFromContext ctx with
        | error err =>
          simp only [hg, hu, List.mem_cons, List.mem_nil_iff, or_false] at he
          subst he
          simp [Event.isRepoWrite] at hw
        | ok userId =>
          by_cases ho : existing.UserID = userId
          · exact ⟨existing, userId, rfl, rfl, ho⟩
          · simp only [hg, hu, ho, ne_eq, not_false_eq_true, if_true, List.mem_cons,
              List.mem_nil_iff, or_false] at he
            subst he
            simp [Event.isRepoWrite] at hw
  · intro e he hw
    unfold DeleteTodo at he
    cases hg : t.GetByID id with
    | error err =>
      simp only [hg, List.mem_cons, List.mem_nil_iff, or_false] at he
      subst he
      simp [Event.isRepoWrite] at hw
    | ok found =>
      cases found with
      | none =>
        simp only [hg, List.mem_cons, List.mem_nil_iff, or_false] at he
        subst he
        simp [Event.isRepoWrite] at hw
      | some existing =>
        cases hu : t.GetUserIDFromContext ctx with
        | error err =>
          simp only [hg, hu, List.mem_cons, List.mem_nil_iff, or_false] at he
          subst he
          simp [Event.isRepoWrite] at hw
        | ok userId =>
          by_cases ho : existing.UserID = userId
          · exact ⟨existing, userId, rfl, rfl, ho⟩
          · simp only [hg, hu, ho, ne_eq, not_false_eq_true, if_true, List.mem_cons,
              List.mem_nil_iff, or_false] at he
            subst he
            simp [Event.isRepoWrite] at hw
  · intro existing userId hg hu ho
    refine ⟨?_, ?_, ?_, ?_, ?_⟩
    · simp [UpdateTodo, hg, hu, ho, errUnauthorized]
    · intro e he
      simp only [UpdateTodo, hg, hu, ho, ne_eq, not_false_eq_true, if_true, List.mem_cons,
        List.mem_nil_iff, or_false] at he
      subst he
      rfl
    · simp [DeleteTodo, hg, hu, ho, errUnauthorized]
    · intro e he
      simp only [DeleteTodo, hg, hu, ho, ne_eq, not_false_eq_true, if_true, List.mem_cons,
        List.mem_nil_iff, or_false] at he
      subst he
      rfl
    · intro hmiss
      unfold GetTodoByID
      simp only [hu]
      cases hr : t.RedisGet (Sprintf todoCacheKey id) with
      | error err => exact getByIDFromDatabase_other t id userId _ _ existing hg ho
      | ok cached =>
        obtain ⟨err, herr⟩ := hmiss cached hr
        simp only [herr]
        exact getByIDFromDatabase_other t id userId _ _ existing hg ho
  · intro cached cachedTodo userId hu hr hj ho
    simp [GetTodoByID, hu, hr, hj, ho, errUnauthorized]
  · intro e he
    rcases GetTodoByID_trace t ctx id with h | h | h | ⟨j, h⟩ <;> rw [h] at he
    · simp at he
    all_goals
      simp only [List.mem_cons, List.mem_nil_iff, or_false] at he
      rcases he with rfl | rfl | rfl <;> rfl

/-- C18 in the sample deployment: `user-2` asks for, updates and deletes the
todo `7` of `user-1`. -/
theorem ownership_enforced_witness :
    (UpdateTodo (Sample.service [] [Sample.todo7] "user-2") (Sample.authRequest "") "7"
        ⟨"Mine now", "Taken over"⟩).value = .error "Unauthorized" ∧
      (∀ e ∈ (UpdateTodo (Sample.service [] [Sample.todo7] "user-2") (Sample.authRequest "")
          "7" ⟨"Mine now", "Taken over"⟩).trace, e.isRepoWrite = false) ∧
      (DeleteTodo (Sample.service [] [Sample.todo7] "user-2") (Sample.authRequest "")
        "7").value = .error "Unauthorized" ∧
      (∀ e ∈ (DeleteTodo (Sample.service [] [Sample.todo7] "user-2") (Sample.authRequest "")
          "7").trace, e.isRepoWrite = false) ∧
      (GetTodoByID (Sample.service [] [Sample.todo7] "user-2") (Sample.authRequest "")
        "7").value = .error "Unauthorized" ∧
      (GetTodoByID (Sample.service [] [Sample.todo7] "user-1") (Sample.authRequest "")
        "7").value = .ok ⟨"7", "Buy milk", "Two litres", "user-1"⟩ :=
  have h := (ownership_enforced (Sample.service [] [Sample.todo7] "user-2")
    (Sample.authRequest "") "7" ⟨"Mine now", "Taken over"⟩).2.2.2.1 Sample.todo7 "user-2"
    (by decide) rfl (by decide)
  ⟨h.1, h.2.1, h.2.2.1, h.2.2.2.1,
    h.2.2.2.2 (fun cached hc => by cases hc), by decide⟩

end Services

/-! ## The not-found error, from the service to the status code -/

namespace Services

/-- The verb `%s` after a prefix without `%` is replaced by the argument. -/
theorem substS_after_plain (pre rest : List Char) (arg : String) (h : '%' ∉ pre) :
    substS (pre ++ '%' :: 's' :: rest) arg = pre ++ (arg.toList ++ rest) := by
  induction pre with
  | nil => simp [substS]
  | cons ch cs ih =>
    have hc : ch ≠ '%' := fun e => h (by simp [e])
    have hcs : '%' ∉ cs := fun e => h (by simp [e])
    show substS (ch :: (cs ++ '%' :: 's' :: rest)) arg = _
    rw [substS]
    · rw [ih hcs]
      rfl
    · intro r e _
      exact hc e

/-- The format of the not-found error applied to an id is the fixed text
followed by the id. -/
theorem Sprintf_errTodoNotFound (id : String) :
    Sprintf errTodoNotFound id = "Not found todo with id: " ++ id := by
  have h := substS_after_plain "Not found todo with id: ".toList [] id (by decide)
  have e : errTodoNotFound.toList = "Not found todo with id: ".toList ++ '%' :: 's' :: [] := by
    decide
  apply String.ext
  show substS errTodoNotFound.toList id = ("Not found todo with id: " ++ id).data
  rw [String.data_append, e, h]
  simp

/-- The not-found error is never the text `Unauthorized`. -/
theorem notFound_ne_unauthorized (id : String) :
    "Not found todo with id: " ++ id ≠ "Unauthorized" := by
  intro h
  have hd := congrArg String.data h
  rw [String.data_append] at hd
  simp at hd

end Services

namespace Handlers

/-- C21: for every id the not-found error of the todo service, the format
`Not found todo with id: %s` applied to the id, is the text the handlers match
on, `Not found todo with id: ` followed by the id. So when `GetTodoByID`,
`UpdateTodo` or `DeleteTodo` of the service finds no todo under the id of the
request, the handler answers through `utils.ErrorResponse` with status 404, and
it answers the service error `Unauthorized` with status 401. -/
theorem not_found_answered_404 (t : Services.Deps) (h : TodoDeps) (q : TodoByIDDeps)
    (c : Ctx) (id : String) (req : UpdateTodoRequest)
    (hne : id ≠ "") (hq : q.Params c "id" = id) (hh : h.Params c "id" = id)
    (hp : h.BodyParserUpdateTodoRequest c = .ok req)
    (ht : req.Title ≠ "") (hd : req.Description ≠ "") :
    Services.Sprintf Services.errTodoNotFound id = "Not found todo with id: " ++ id ∧
    (t.GetByID id = .ok none →
      (Services.UpdateTodo t c id req).value =
        .error (Services.Sprintf Services.errTodoNotFound id) ∧
      (Services.DeleteTodo t c id).value =
        .error (Services.Sprintf Services.errTodoNotFound id) ∧
      ∀ userId, t.GetUserIDFromContext c = .ok userId →
        (∀ cached, t.RedisGet (Services.Sprintf Services.todoCacheKey id) = .ok cached →
          ∃ err, t.UnmarshalTodo cached = .error err) →
        (Services.GetTodoByID t c id).value =
          .error (Services.Sprintf Services.errTodoNotFound id)) ∧
    (q.GetTodoByID c id = .error (Services.Sprintf Services.errTodoNotFound id) →
      GetTodoByID q c = q.ErrorResponse 404 ("Not found todo with id: " ++ id)) ∧
    (q.DeleteTodo c id = .error (Services.Sprintf Services.errTodoNotFound id) →
      DeleteTodo q c = q.ErrorResponse 404 ("Not found todo with id: " ++ id)) ∧
    (h.UpdateTodo c id req = .error (Services.Sprintf Services.errTodoNotFound id) →
      (UpdateTodo h c).value = h.ErrorResponse 404 ("Not found todo with id: " ++ id)) ∧
    (q.GetTodoByID c id = .error "Unauthorized" →
      GetTodoByID q c = q.ErrorResponse 401 "Unauthorized") ∧
    (q.DeleteTodo c id = .error "Unauthorized" →
      DeleteTodo q c = q.ErrorResponse 401 "Unauthorized") ∧
    (h.UpdateTodo c id req = .error "Unauthorized" →
      (UpdateTodo h c).value = h.ErrorResponse 401 "Unauthorized") := by
  have hfmt := Services.Sprintf_errTodoNotFound id
  have hnu := Services.notFound_ne_unauthorized id
  refine ⟨hfmt, ?_, ?_, ?_, ?_, ?_, ?_, ?_⟩
  · intro hg
    refine ⟨?_, ?_, ?_⟩
    · simp [Services.UpdateTodo, hg]
    · simp [Services.DeleteTodo, hg]
    · intro userId hu hmiss
      unfold Services.GetTodoByID
      simp only [hu]
      cases hr : t.RedisGet (Services.Sprintf Services.todoCacheKey id) with
      | error err => simp [Services.getByIDFromDatabase, hg]
      | ok cached =>
        obtain ⟨err, herr⟩ := hmiss cached hr
        simp [herr, Services.getByIDFromDatabase, hg]
  · intro hs
    rw [hfmt] at hs
    simp [GetTodoByID, hq, hne, hs, hnu, StatusNotFound]
  · intro hs
    rw [hfmt] at hs
    simp [DeleteTodo, hq, hne, hs, hnu, StatusNotFound]
  · intro hs
    rw [hfmt] at hs
    simp [UpdateTodo, hp, hh, hne, Validators.ValidateUpdateTodo, ht, hd, hs, hnu,
      StatusNotFound]
  · intro hs
    simp [GetTodoByID, hq, hne, hs, StatusUnauthorized]
  · intro hs
    simp [DeleteTodo, hq, hne, hs, StatusUnauthorized]
  · intro hs
    simp [UpdateTodo, hp, hh, hne, Validators.ValidateUpdateTodo, ht, hd, hs,
      StatusUnauthorized]

/-- C21 in the sample deployment, the handlers running over the todo service:
`user-1` asks for, deletes and updates the todo `8`, which does not exist. -/
theorem not_found_answered_404_witness :
    (Sample.service [] [Sample.todo7] "user-1").GetByID "8" = .ok none ∧
      GetTodoByID (Sample.todoByID (Sample.service [] [Sample.todo7] "user-1") "8")
          (Sample.authRequest "") =
        ⟨404, [("success", .bool false), ("error", .str "Not found todo with id: 8")]⟩ ∧
      DeleteTodo (Sample.todoByID (Sample.service [] [Sample.todo7] "user-1") "8")
          (Sample.authRequest "") =
        ⟨404, [("success", .bool false), ("error", .str "Not found todo with id: 8")]⟩ ∧
      (UpdateTodo (Sample.todoUpdate (Sample.service [] [Sample.todo7] "user-1") "8"
          ⟨"Buy bread", "One loaf"⟩) (Sample.authRequest "")).value =
        ⟨404, [("success", .bool false), ("error", .str "Not found todo with id: 8")]⟩ :=
  have hg : (Sample.service [] [Sample.todo7] "user-1").GetByID "8" = .ok none := by decide
  have h := not_found_answered_404 (Sample.service [] [Sample.todo7] "user-1")
    (Sample.todoUpdate (Sample.service [] [Sample.todo7] "user-1") "8"
      ⟨"Buy bread", "One loaf"⟩)
    (Sample.todoByID (Sample.service [] [Sample.todo7] "user-1") "8")
    (Sample.authRequest "") "8" ⟨"Buy bread", "One loaf"⟩
    (by decide) (by decide) (by decide) rfl (by decide) (by decide)
  have hs := h.2.1 hg
  ⟨hg,
    h.2.2.1 (hs.2.2 "user-1" rfl (fun cached hc => by cases hc)),
    h.2.2.2.1 hs.2.1,
    h.2.2.2.2.1 hs.1⟩

end Handlers

end TodoApi
